import Mathlib

/-!
# traefik-payload-router: the `EndpointRedirect` middleware

A shallow embedding of `endpoint_redirect.go`.  The handler inspects a JSON
field of the body of a webhook request and either hands the request to the
next handler of the chain or forwards it to a destination chosen from a
mapping table.

The Go standard library is not part of the repository.  The pieces whose
behaviour the handler relies on are either written out (`strings.HasPrefix`,
`strings.TrimSpace`, `fmt.Sprintf("%.0f", _)`, `http.Header.Add`, the rounding
of an integer literal to a `float64`) or, where they are large parsers or the
network, supplied through an `Env` record (`json.Unmarshal`, `url.Parse`,
`(*url.URL).String`, `(*http.Client).Do`).
-/

namespace PayloadRouter

/-! ## Standard-library values -/

/-- Go's `[]byte`. -/
abbrev Bytes := List UInt8

/-- The bytes of a Go string constant, as in `[]byte("...")`. -/
def bytesOf (s : String) : Bytes := s.toUTF8.data.toList

/-- A finite IEEE-754 binary64 value `(-1)^neg * mant * 2^exp`.  `json.Unmarshal`
stores every JSON number of an `interface{}` target as a `float64` and rejects
the literals that overflow, so neither NaN nor an infinity reaches the handler. -/
structure Float64 where
  neg : Bool
  mant : Nat
  exp : Int
deriving DecidableEq, Repr

/-- The integer nearest to `mant * 2^exp`, a tie going to the even neighbour: the
rounding `strconv` applies when it formats a float with zero fractional digits. -/
def roundHalfEven (mant : Nat) (exp : Int) : Nat :=
  match exp with
  | Int.ofNat k => mant * 2 ^ k
  | Int.negSucc k =>
    let d := 2 ^ (k + 1)
    let q := mant / d
    let r := mant % d
    if 2 * r < d then q
    else if d < 2 * r then q + 1
    else if q % 2 = 0 then q else q + 1

/-- The integer part of `mant * 2^exp` (rounding toward zero). -/
def truncToInt (mant : Nat) (exp : Int) : Nat :=
  match exp with
  | Int.ofNat k => mant * 2 ^ k
  | Int.negSucc k => mant / 2 ^ (k + 1)

/-- Whether `mant * 2^exp` has a non-zero fractional part. -/
def hasFraction (mant : Nat) (exp : Int) : Bool :=
  match exp with
  | Int.ofNat _ => false
  | Int.negSucc k => mant % 2 ^ (k + 1) != 0

/-- Go's `fmt.Sprintf("%.0f", v)`: the sign, when the sign bit is set, followed by
the decimal digits of the value rounded to an integer. -/
def Sprintf0f (v : Float64) : String :=
  (if v.neg then "-" else "") ++ Nat.repr (roundHalfEven v.mant v.exp)

/-- The number of halvings that bring `n` below `2^53`: how many low bits of `n` do
not fit a 53-bit significand.  The first argument bounds the recursion. -/
def excessBits : Nat → Nat → Nat
  | 0, _ => 0
  | fuel + 1, n => if n < 2 ^ 53 then 0 else excessBits fuel (n / 2) + 1

/-- The `float64` nearest to the natural number `n` as significand and exponent
(round to nearest, ties to even), or `none` when the exponent exceeds 971, the
largest of a finite `float64`: what `strconv.ParseFloat` yields for an integer
literal. -/
def nearestFloat64 (n : Nat) : Option (Nat × Nat) :=
  let sh := excessBits n n
  let q := n / 2 ^ sh
  let r := n % 2 ^ sh
  let m := if 2 * r < 2 ^ sh then q else if 2 ^ sh < 2 * r then q + 1
    else if q % 2 = 0 then q else q + 1
  let (m, e) := if m = 2 ^ 53 then (2 ^ 52, sh + 1) else (m, sh)
  if 971 < e then none else some (m, e)

/-- A JSON number literal whose value is an integer: whether it is written with a
minus sign, and its magnitude.  The literals `42`, `42.0` and `4.2e1` have magnitude
42 and no sign; `-0` has the sign and magnitude 0. -/
structure JSONInteger where
  neg : Bool
  magnitude : Nat
deriving DecidableEq, Repr

/-- The integer a literal denotes. -/
def JSONInteger.value (l : JSONInteger) : Int :=
  if l.neg then -(l.magnitude : Int) else (l.magnitude : Int)

/-- The `float64` that `json.Unmarshal` stores for an integer-valued JSON number
(`strconv.ParseFloat` of the literal): the nearest value to the magnitude, with the
sign bit set exactly when the literal has a minus sign, so that `-0` gives negative
zero; `none` when the number is out of range (decoding then fails). -/
def float64OfLiteral (l : JSONInteger) : Option Float64 :=
  match nearestFloat64 l.magnitude with
  | none => none
  | some (m, e) => some ⟨l.neg, m, Int.ofNat e⟩

/-- Whether a `float64` holds the natural number `n` exactly. -/
def exactFloat64 (n : Nat) : Bool :=
  match nearestFloat64 n with
  | none => false
  | some (m, e) => m * 2 ^ e == n

/-- A value that `json.Unmarshal` stores in an `interface{}`: `nil`, `bool`,
`float64`, `string`, `[]interface{}` or `map[string]interface{}`. -/
inductive JValue where
  | null
  | bool (b : Bool)
  | number (v : Float64)
  | string (s : String)
  | array (xs : List JValue)
  | object (kvs : List (String × JValue))

/-- Go's `unicode.IsSpace`. -/
def isSpace (c : Char) : Bool :=
  let n := c.toNat
  (9 ≤ n && n ≤ 13) || n == 32 || n == 0x85 || n == 0xA0 || n == 0x1680
    || (0x2000 ≤ n && n ≤ 0x200A) || n == 0x2028 || n == 0x2029 || n == 0x202F
    || n == 0x205F || n == 0x3000

/-- Go's `strings.TrimSpace`: the string without its leading and trailing white
space. -/
def TrimSpace (s : String) : String :=
  ⟨List.rdropWhile isSpace (List.dropWhile isSpace s.data)⟩

/-- Go's `strings.HasPrefix(s, p)`. -/
def HasPrefix (s p : String) : Bool :=
  p.data.isPrefixOf s.data

/-- Go's `map[string]string`, as an association list read by its first match; a
nil map is `none`.  Reading a nil map finds nothing and ranging over it visits
nothing. -/
abbrev StringMap := Option (List (String × String))

/-- The Go expression `v, ok := m[k]`. -/
def mapIndex (m : StringMap) (k : String) : Option String :=
  match m with
  | none => none
  | some kvs => kvs.lookup k

/-- The entries a `range` over the map visits. -/
def mapEntries (m : StringMap) : List (String × String) :=
  match m with
  | none => []
  | some kvs => kvs

/-- Go's `http.Header`, a map from header name to its values in order. -/
abbrev Header := List (String × List String)

/-- The bytes allowed in a header name (RFC 7230 token characters). -/
def validHeaderFieldByte (c : Char) : Bool :=
  c.isAlphanum || "!#$%&'*+-.^_`|~".data.contains c

/-- The letter-case pass of `textproto.CanonicalMIMEHeaderKey`: upper case at the
start and after a hyphen, lower case elsewhere. -/
def canonicalCase : Bool → List Char → List Char
  | _, [] => []
  | upper, c :: cs =>
    let c1 := if upper then c.toUpper else c.toLower
    c1 :: canonicalCase (c1 == '-') cs

/-- Go's `textproto.CanonicalMIMEHeaderKey`: a name made of token characters is put
in canonical case, any other string is returned unchanged. -/
def CanonicalMIMEHeaderKey (s : String) : String :=
  if s.data.all validHeaderFieldByte then ⟨canonicalCase true s.data⟩ else s

/-- Appends `value` to the values stored under exactly the name `key`. -/
def appendValue : Header → String → String → Header
  | [], key, value => [(key, [value])]
  | (k, vs) :: rest, key, value =>
    if k = key then (k, vs ++ [value]) :: rest
    else (k, vs) :: appendValue rest key value

/-- Go's `Header.Add(key, value)`. -/
def headerAdd (h : Header) (key value : String) : Header :=
  appendValue h (CanonicalMIMEHeaderKey key) value

/-- The loop `for key, values := range src { for _, value := range values {
dst.Add(key, value) } }`.  The names are visited in the order of the list. -/
def copyHeader (src dst : Header) : Header :=
  src.foldl (fun acc kv => kv.2.foldl (fun a v => headerAdd a kv.1 v) acc) dst

/-- The fields of `net/url.URL` the handler reads or writes, with the other
components a destination carries. -/
structure URL where
  Scheme : String
  Host : String
  Path : String
  RawQuery : String
  Fragment : String
deriving DecidableEq, Repr

/-- The state of a body stream: the bytes `data` it still holds, which a read to the
end delivers, followed by end of file or, when `fails` is set, by a read error. -/
structure Body where
  data : Bytes
  fails : Bool
deriving DecidableEq, Repr

/-- What Go's `io.ReadAll` returns for a stream in state `b`, with `none` for a
non-nil error.  The call also moves the stream to the state `afterReadAll b`. -/
def ioReadAll (b : Body) : Option Bytes :=
  if b.fails then none else some b.data

/-- The state in which `io.ReadAll` leaves a stream: every byte has been consumed, so
a later read delivers nothing more; a stream that failed keeps failing. -/
def afterReadAll (b : Body) : Body :=
  ⟨[], b.fails⟩

/-- Go's `io.NopCloser(bytes.NewBuffer(body))`: a fresh stream that holds `body`. -/
def newBuffer (body : Bytes) : Body :=
  ⟨body, false⟩

/-- The parts of an incoming `*http.Request` the handler uses. -/
structure Request where
  Method : String
  URL : URL
  Header : Header
  Body : Body
deriving DecidableEq, Repr

/-- The request built by `http.NewRequestWithContext`; `URL` is the string it was
given. -/
structure OutboundRequest where
  Method : String
  URL : String
  Header : Header
  Body : Bytes
deriving DecidableEq, Repr

/-- An upstream `*http.Response`. -/
structure Response where
  StatusCode : Int
  Header : Header
  Body : Body
deriving DecidableEq, Repr

/-- The standard-library operations that are parsers or the network. -/
structure Env where
  /-- Result of `json.Unmarshal(body, &payload)` for `payload map[string]interface{}`:
  `none` for an error, the decoded map otherwise (empty for the literal `null`). -/
  jsonUnmarshal : Bytes → Option (List (String × JValue))
  /-- Result of `url.Parse`, `none` for an error. -/
  urlParse : String → Option URL
  /-- Result of `(*url.URL).String`. -/
  urlString : URL → String
  /-- Result of `(*http.Client).Do`, `none` for an error. -/
  clientDo : OutboundRequest → Option Response

/-- Method check of `net/http`: a non-empty token. -/
def validMethod (method : String) : Bool :=
  method != "" && method.data.all validHeaderFieldByte

/-- Go's `http.NewRequestWithContext(ctx, method, url, body)` for a non-nil context:
an empty method means GET, the method must be a token and the URL must parse. -/
def NewRequestWithContext (env : Env) (method url : String) (body : Bytes) :
    Option OutboundRequest :=
  let method := if method = "" then "GET" else method
  if validMethod method then
    match env.urlParse url with
    | none => none
    | some _ => some ⟨method, url, [], body⟩
  else none

/-- What a handler did to its `http.ResponseWriter`: the header map, the calls of
`WriteHeader` in order, and the bytes written. -/
structure ResponseWriter where
  header : Header
  status : List Int
  written : Bytes
deriving DecidableEq, Repr

/-- Records `rw.WriteHeader(code)`. -/
def ResponseWriter.WriteHeader (rw : ResponseWriter) (code : Int) : ResponseWriter :=
  { rw with status := rw.status ++ [code] }

/-- Records `rw.Write(p)`. -/
def ResponseWriter.Write (rw : ResponseWriter) (p : Bytes) : ResponseWriter :=
  { rw with written := rw.written ++ p }

/-! ## The plugin -/

/-- Plugin configuration (`type Config struct`). -/
structure Config where
  FieldName : String
  RedirectMappings : StringMap
  DefaultRedirect : String
  WebhookPath : String
  StatusCode : Int
deriving DecidableEq, Repr

/-- Default plugin configuration (`func CreateConfig`). -/
def CreateConfig : Config :=
  { FieldName := "endpoint_id"
    RedirectMappings := some []
    DefaultRedirect := ""
    WebhookPath := "/webhooks"
    StatusCode := 302 }

/-- The handler (`type EndpointRedirect struct`).  The `next` handler is an opaque
collaborator: the calls made to it are recorded in `Effects`. -/
structure EndpointRedirect where
  name : String
  fieldName : String
  redirectMappings : StringMap
  defaultRedirect : String
  webhookPath : String
  statusCode : Int
deriving DecidableEq, Repr

/-- The two errors `New` returns. -/
inductive NewError where
  | invalidRedirectURL (fieldValue : String)
  | invalidDefaultRedirectURL
deriving DecidableEq, Repr

/-- The defaulting `New` performs on the configuration it is given (lines 56-66). -/
def applyDefaults (config : Config) : Config :=
  let config := if config.FieldName = "" then { config with FieldName := "endpoint_id" } else config
  let config := if config.WebhookPath = "" then { config with WebhookPath := "/webhooks" } else config
  if config.StatusCode = 0 then { config with StatusCode := 302 } else config

/-- The validation loop of `New` (lines 69-73): the key of the first visited entry
whose URL does not parse. -/
def firstInvalid (env : Env) : List (String × String) → Option String
  | [] => none
  | (fieldValue, redirectURL) :: rest =>
    match env.urlParse redirectURL with
    | none => some fieldValue
    | some _ => firstInvalid env rest

/-- Go's `New(ctx, next, config, name)`: the pair `(handler, error)` it returns. -/
def New (env : Env) (config : Config) (name : String) :
    Option EndpointRedirect × Option NewError :=
  let config := applyDefaults config
  match firstInvalid env (mapEntries config.RedirectMappings) with
  | some fieldValue => (none, some (.invalidRedirectURL fieldValue))
  | none =>
    if config.DefaultRedirect ≠ "" ∧ (env.urlParse config.DefaultRedirect).isNone then
      (none, some .invalidDefaultRedirectURL)
    else
      (some
        { name := name
          fieldName := config.FieldName
          redirectMappings := config.RedirectMappings
          defaultRedirect := config.DefaultRedirect
          webhookPath := config.WebhookPath
          statusCode := config.StatusCode }, none)

/-- Where the first half of `ServeHTTP` (lines 93-161) ends: at a call of the next
handler, with the request it passes (its body stream in the state the handler left
it in) and the number of `io.ReadAll` calls made on the incoming body stream; or
with a destination and the body bytes read. -/
inductive Decision where
  | passThrough (req : Request) (reads : Nat)
  | forward (redirectURL : String) (body : Bytes)
deriving DecidableEq, Repr

/-- The type switch of lines 131-140: the string of a string or number field. -/
def fieldString : JValue → Option String
  | .string v => some v
  | .number v => some (Sprintf0f v)
  | _ => none

/-- Lines 93-161 of `ServeHTTP`: the gates, the body read and restore, the field
extraction and the choice of the destination.  The request is threaded through as
state: the read of line 106 leaves its body stream consumed, and line 113 replaces
that stream by a fresh buffer over the bytes read. -/
def classify (env : Env) (e : EndpointRedirect) (req : Request) : Decision :=
  if !HasPrefix req.URL.Path e.webhookPath then .passThrough req 0
  else if req.Method ≠ "POST" then .passThrough req 0
  else
    match ioReadAll req.Body with
    | none => .passThrough { req with Body := afterReadAll req.Body } 1
    | some body =>
      let req := { req with Body := afterReadAll req.Body }
      let req := { req with Body := newBuffer body }
      match env.jsonUnmarshal body with
      | none => .passThrough req 1
      | some payload =>
        match payload.lookup e.fieldName with
        | none => .passThrough req 1
        | some fieldValue =>
          match fieldString fieldValue with
          | none => .passThrough req 1
          | some fieldStr =>
            if fieldStr = "" then .passThrough req 1
            else
              let fieldStr := TrimSpace fieldStr
              match mapIndex e.redirectMappings fieldStr with
              | some mappedURL => .forward mappedURL body
              | none =>
                if e.defaultRedirect ≠ "" then .forward e.defaultRedirect body
                else .passThrough req 1

/-- Lines 172-179: the query of the original request is kept on the destination. -/
def mergeQuery (parsedURL : URL) (rawQuery : String) : URL :=
  if rawQuery ≠ "" then
    if parsedURL.RawQuery ≠ "" then
      { parsedURL with RawQuery := parsedURL.RawQuery ++ "&" ++ rawQuery }
    else { parsedURL with RawQuery := rawQuery }
  else parsedURL

/-- What one call of `ServeHTTP` did: its own writes to the response writer, the
requests it handed to the next handler, the number of `io.ReadAll` calls on the
incoming body stream, and the requests it gave to `client.Do`. -/
structure Effects where
  rw : ResponseWriter
  next : List Request
  reads : Nat
  sent : List OutboundRequest
deriving DecidableEq, Repr

/-- Lines 163-215 of `ServeHTTP`: the outbound request and the relay of the answer. -/
def forward (env : Env) (rw : ResponseWriter) (req : Request) (body : Bytes)
    (redirectURL : String) : Effects :=
  match env.urlParse redirectURL with
  | none =>
    ⟨(rw.WriteHeader 500).Write (bytesOf "Invalid redirect URL"), [], 1, []⟩
  | some parsedURL =>
    let parsedURL := mergeQuery parsedURL req.URL.RawQuery
    match NewRequestWithContext env req.Method (env.urlString parsedURL) body with
    | none =>
      ⟨(rw.WriteHeader 500).Write (bytesOf "Failed to create redirect request"), [], 1, []⟩
    | some newReq =>
      let newReq := { newReq with Header := copyHeader req.Header newReq.Header }
      match env.clientDo newReq with
      | none =>
        ⟨(rw.WriteHeader 502).Write (bytesOf "Failed to forward request"), [], 1, [newReq]⟩
      | some resp =>
        let rw := { rw with header := copyHeader resp.Header rw.header }
        let rw := rw.WriteHeader resp.StatusCode
        ⟨rw.Write resp.Body.data, [], 1, [newReq]⟩

/-- Go's `(e *EndpointRedirect) ServeHTTP(rw, req)`. -/
def ServeHTTP (env : Env) (e : EndpointRedirect) (rw : ResponseWriter) (req : Request) :
    Effects :=
  match classify env e req with
  | .passThrough req1 reads => ⟨rw, [req1], reads, []⟩
  | .forward redirectURL body => forward env rw req body redirectURL

/-- The destination of a decision, `none` for a pass-through. -/
def Decision.destination : Decision → Option String
  | .passThrough _ _ => none
  | .forward redirectURL _ => some redirectURL

/-- The request after line 113: the body replaced by a fresh buffer over the bytes
read. -/
def restored (req : Request) (body : Bytes) : Request :=
  { req with Body := newBuffer body }

/-! ## Reference definitions, worded as the specification -/

/-- Mapping resolution as the specification states it (classifier step 7): the
mapped URL when the key is found, else the default destination when it is not
empty, else no destination. -/
def resolveSpec (mappings : StringMap) (defaultDestination key : String) : Option String :=
  match mapIndex mappings key with
  | some mapped => some mapped
  | none => if defaultDestination = "" then none else some defaultDestination

/-- Query merge as the specification states it (classifier step 8), for the raw
query `d` of the destination and `q` of the original request. -/
def mergedQuerySpec (d q : String) : String :=
  if q = "" then d else if d = "" then q else d ++ "&" ++ q

/-- Base-10 rendering of an integer. -/
def decimal (n : Int) : String :=
  (if n < 0 then "-" else "") ++ Nat.repr n.natAbs

/-! ## A concrete environment

Finite tables stand for the parsers: a byte string or URL outside the tables is
reported as an error.  The upstream answers 200 with a fixed body, as the mock
server of the test suite does. -/

/-- Renders `scheme://host/path?query#fragment`, as `(*url.URL).String` does for a
URL with a scheme and a host. -/
def renderURL (u : URL) : String :=
  u.Scheme ++ "://" ++ u.Host ++ u.Path ++ (if u.RawQuery = "" then "" else "?" ++ u.RawQuery)
    ++ (if u.Fragment = "" then "" else "#" ++ u.Fragment)

/-- The environment given by a table of JSON documents and a table of URLs. -/
def tableEnv (json : List (Bytes × List (String × JValue))) (urls : List (String × URL)) : Env :=
  { jsonUnmarshal := fun b => json.lookup b
    urlParse := fun s => urls.lookup s
    urlString := renderURL
    clientDo := fun _ => some ⟨200, [], ⟨bytesOf "Forwarded successfully", false⟩⟩ }

/-- The URLs the examples use, with their parsed form. -/
def sampleURLs : List (String × URL) :=
  [ ("http://a.example/hook", ⟨"http", "a.example", "/hook", "", ""⟩),
    ("http://b.example/hook?b=2", ⟨"http", "b.example", "/hook", "b=2", ""⟩),
    ("http://b.example/hook?b=2&a=1", ⟨"http", "b.example", "/hook", "b=2&a=1", ""⟩),
    ("http://a.example/hook?a=1", ⟨"http", "a.example", "/hook", "a=1", ""⟩),
    ("http://d.example/default", ⟨"http", "d.example", "/default", "", ""⟩) ]

/-- The JSON documents the examples use, with their decoded form. -/
def sampleDocs : List (Bytes × List (String × JValue)) :=
  [ (bytesOf "\x7b\"endpoint_id\":\"KHUID000001\"\x7d", [("endpoint_id", .string "KHUID000001")]),
    (bytesOf "\x7b\"endpoint_id\":\"UNKNOWN_ID\"\x7d", [("endpoint_id", .string "UNKNOWN_ID")]),
    (bytesOf "\x7b\"endpoint_id\":\"   \"\x7d", [("endpoint_id", .string "   ")]),
    (bytesOf "\x7b\"endpoint_id\":\"\"\x7d", [("endpoint_id", .string "")]),
    (bytesOf "\x7b\"endpoint_id\":\" KHUID000001 \"\x7d",
      [("endpoint_id", .string " KHUID000001 ")]),
    (bytesOf "\x7b\"endpoint_id\":true\x7d", [("endpoint_id", .bool true)]),
    (bytesOf "\x7b\"type\":\"DOCUMENT.RECEIVED\"\x7d", [("type", .string "DOCUMENT.RECEIVED")]),
    (bytesOf "\x7b\"endpoint_id\":42\x7d", [("endpoint_id", .number ⟨false, 42, 0⟩)]),
    (bytesOf "\x7b\"endpoint_id\":-0\x7d", [("endpoint_id", .number ⟨true, 0, 0⟩)]),
    (bytesOf "\x7b\"endpoint_id\":\"0\"\x7d", [("endpoint_id", .string "0")]),
    (bytesOf "\x7b\"endpoint_id\":\"42\"\x7d", [("endpoint_id", .string "42")]),
    (bytesOf "\x7b\"endpoint_id\":42.7\x7d",
      [("endpoint_id", .number ⟨false, 6009490752772506, -47⟩)]),
    (bytesOf "\x7b\"endpoint_id\":9007199254740993\x7d",
      [("endpoint_id", .number ⟨false, 4503599627370496, 1⟩)]),
    (bytesOf "\x7b\"endpoint_id\":\"9007199254740993\"\x7d",
      [("endpoint_id", .string "9007199254740993")]) ]

/-- The environment of the examples. -/
def sampleEnv : Env := tableEnv sampleDocs sampleURLs

/-- A POST request to `/webhooks` with the given raw query and body. -/
def postWebhook (rawQuery : String) (body : String) : Request :=
  ⟨"POST", ⟨"", "", "/webhooks", rawQuery, ""⟩, [("Content-Type", ["application/json"])],
    ⟨bytesOf body, false⟩⟩

/-- A configuration with one mapping and no default destination, as in the test
suite. -/
def sampleConfig : Config :=
  { FieldName := ""
    RedirectMappings := some [("KHUID000001", "http://a.example/hook")]
    DefaultRedirect := ""
    WebhookPath := "/webhooks"
    StatusCode := 302 }

/-- The handler `New` builds from `sampleConfig`. -/
def sampleHandler : EndpointRedirect :=
  ⟨"test-plugin", "endpoint_id", some [("KHUID000001", "http://a.example/hook")], "",
    "/webhooks", 302⟩

/-- The handler of `sampleConfig` with a default destination added. -/
def defaultHandler : EndpointRedirect :=
  { sampleHandler with defaultRedirect := "http://d.example/default" }

/-- A handler whose mapped destination carries a query of its own. -/
def queryHandler : EndpointRedirect :=
  { sampleHandler with redirectMappings := some [("KHUID000001", "http://b.example/hook?b=2")] }

/-- A handler that maps the decimal string of `2^53 + 1`. -/
def bigHandler : EndpointRedirect :=
  { sampleHandler with redirectMappings := some [("9007199254740993", "http://a.example/hook")] }

/-- A handler that maps the key `"0"`. -/
def zeroHandler : EndpointRedirect :=
  { sampleHandler with redirectMappings := some [("0", "http://a.example/hook")] }

/-- A handler that maps the keys `"42"` and `"43"` to different destinations. -/
def roundingHandler : EndpointRedirect :=
  { sampleHandler with
    redirectMappings := some [("42", "http://a.example/hook"), ("43", "http://d.example/default")] }

/-- A response writer nothing was written to. -/
def freshWriter : ResponseWriter := ⟨[], [], []⟩

/-- A configuration `New` refuses: a mapping value, or a non-empty default
destination, that `url.Parse` rejects. -/
def InvalidConfig (env : Env) (config : Config) : Prop :=
  (∃ kv ∈ mapEntries config.RedirectMappings, env.urlParse kv.2 = none) ∨
    (config.DefaultRedirect ≠ "" ∧ env.urlParse config.DefaultRedirect = none)

/-- The outbound request of a forwarded request: the original method and headers,
the destination with the merged query, the bytes read from the body. -/
def outboundFor (env : Env) (req : Request) (body : Bytes) (parsedURL : URL) : OutboundRequest :=
  ⟨req.Method, env.urlString (mergeQuery parsedURL req.URL.RawQuery), copyHeader req.Header [],
    body⟩

/-- The Go expression `h[key]` on a header map, a missing key giving no values. -/
def valuesAt (h : Header) (key : String) : List String :=
  match h.lookup key with
  | some vs => vs
  | none => []

/-- Go's `Header.Values(name)`: the values stored under the canonical form of the
name. -/
def headerValues (h : Header) (name : String) : List String :=
  valuesAt h (CanonicalMIMEHeaderKey name)

/-- The values of all entries of `h` whose name has the canonical form `name`, in the
order of the entries. -/
def gathered : Header → String → List String
  | [], _ => []
  | (k, vs) :: rest, name =>
    if CanonicalMIMEHeaderKey k = name then vs ++ gathered rest name else gathered rest name

/-- The environment of the examples with an upstream that cannot be reached. -/
def downEnv : Env := { sampleEnv with clientDo := fun _ => none }

/-- A POST request to `/webhooks` that carries a header with two values. -/
def twoValueRequest : Request :=
  ⟨"POST", ⟨"", "", "/webhooks", "", ""⟩,
    [("Content-Type", ["application/json"]), ("X-Trace", ["first", "second"])],
    ⟨bytesOf "\x7b\"endpoint_id\":\"KHUID000001\"\x7d", false⟩⟩

/-- The environment of the examples with an upstream that answers 201 with a
two-valued header. -/
def cookieEnv : Env :=
  { sampleEnv with
    clientDo := fun _ =>
      some ⟨201, [("Set-Cookie", ["a=1", "b=2"])], ⟨bytesOf "created", false⟩⟩ }

/-- The header copy applied to the request `http.NewRequestWithContext` returned
(lines 190-194). -/
def withCopiedHeader (req : Request) (newReq : OutboundRequest) : OutboundRequest :=
  { newReq with Header := copyHeader req.Header newReq.Header }

/-! ## Lemmas on the classifier -/

theorem lookup_eq_none_of_forall_ne {β : Type} (k : String) :
    ∀ kvs : List (String × β), (∀ kv ∈ kvs, kv.1 ≠ k) → kvs.lookup k = none
  | [], _ => rfl
  | (k1, v) :: rest, h => by
    have h1 : k1 ≠ k := h (k1, v) (List.mem_cons_self _ _)
    have h2 : (k == k1) = false := by
      simpa using fun hk : k = k1 => h1 hk.symm
    rw [List.lookup_cons, h2]
    exact lookup_eq_none_of_forall_ne k rest fun kv hkv => h kv (List.mem_cons_of_mem _ hkv)

/-- The classifier on a request that passes both gates and whose body is read and
decoded: only the field decides. -/
theorem classify_decoded (env : Env) (e : EndpointRedirect) (req : Request) (body : Bytes)
    (payload : List (String × JValue))
    (hpath : HasPrefix req.URL.Path e.webhookPath = true) (hpost : req.Method = "POST")
    (hread : ioReadAll req.Body = some body) (hjson : env.jsonUnmarshal body = some payload) :
    classify env e req =
      match payload.lookup e.fieldName with
      | none => .passThrough (restored req body) 1
      | some fieldValue =>
        match fieldString fieldValue with
        | none => .passThrough (restored req body) 1
        | some fieldStr =>
          if fieldStr = "" then .passThrough (restored req body) 1
          else
            match mapIndex e.redirectMappings (TrimSpace fieldStr) with
            | some mappedURL => .forward mappedURL body
            | none =>
              if e.defaultRedirect ≠ "" then .forward e.defaultRedirect body
              else .passThrough (restored req body) 1 := by
  simp only [classify, hpath, hpost, hread, hjson, restored]
  simp

/-- Every pass-through decision of a request that passes both gates and whose body
is read carries the restored request. -/
theorem classify_passThrough_restored (env : Env) (e : EndpointRedirect) (req : Request)
    (body : Bytes) (hpath : HasPrefix req.URL.Path e.webhookPath = true)
    (hpost : req.Method = "POST") (hread : ioReadAll req.Body = some body)
    (req1 : Request) (reads : Nat) (h : classify env e req = .passThrough req1 reads) :
    req1 = restored req body ∧ reads = 1 := by
  simp only [classify, hpath, hpost, hread] at h
  simp only [restored, Bool.not_true, Bool.false_eq_true, if_false, ne_eq, not_true_eq_false] at h
  split at h
  · simp only [Decision.passThrough.injEq] at h; simp [← h.1, ← h.2, hpost, restored]
  · split at h
    · simp only [Decision.passThrough.injEq] at h; simp [← h.1, ← h.2, hpost, restored]
    · split at h
      · simp only [Decision.passThrough.injEq] at h; simp [← h.1, ← h.2, hpost, restored]
      · split at h
        · simp only [Decision.passThrough.injEq] at h; simp [← h.1, ← h.2, hpost, restored]
        · split at h
          · cases h
          · split at h
            · cases h
            · simp only [Decision.passThrough.injEq] at h; simp [← h.1, ← h.2, hpost, restored]

theorem fieldString_eq_none (fieldValue : JValue) (hstr : ∀ s, fieldValue ≠ .string s)
    (hnum : ∀ v, fieldValue ≠ .number v) : fieldString fieldValue = none := by
  cases fieldValue with
  | string s => exact absurd rfl (hstr s)
  | number v => exact absurd rfl (hnum v)
  | _ => rfl

theorem applyDefaults_mappings (config : Config) :
    (applyDefaults config).RedirectMappings = config.RedirectMappings := by
  unfold applyDefaults
  dsimp only
  split_ifs <;> rfl

theorem applyDefaults_default (config : Config) :
    (applyDefaults config).DefaultRedirect = config.DefaultRedirect := by
  unfold applyDefaults
  dsimp only
  split_ifs <;> rfl

theorem firstInvalid_eq_none (env : Env) :
    ∀ entries : List (String × String),
      firstInvalid env entries = none ↔ ∀ kv ∈ entries, env.urlParse kv.2 ≠ none
  | [] => by simp [firstInvalid]
  | (k, u) :: rest => by
    cases hu : env.urlParse u with
    | none => simp [firstInvalid, hu]
    | some parsed => simp [firstInvalid, hu, firstInvalid_eq_none env rest]

theorem forward_next (env : Env) (rw : ResponseWriter) (req : Request) (body : Bytes)
    (redirectURL : String) : (forward env rw req body redirectURL).next = [] := by
  unfold forward
  split
  · rfl
  · dsimp only
    split
    · rfl
    · split <;> rfl

theorem forward_sent (env : Env) (rw : ResponseWriter) (req : Request) (body : Bytes)
    (redirectURL : String) (parsedURL : URL) (hpost : req.Method = "POST")
    (hparse : env.urlParse redirectURL = some parsedURL) :
    (forward env rw req body redirectURL).sent =
      if (env.urlParse (env.urlString (mergeQuery parsedURL req.URL.RawQuery))).isSome
      then [outboundFor env req body parsedURL] else [] := by
  have hm : validMethod "POST" = true := by decide
  unfold forward
  simp only [hparse, NewRequestWithContext, hpost, outboundFor]
  cases h : env.urlParse (env.urlString (mergeQuery parsedURL req.URL.RawQuery)) with
  | none => simp [hm]
  | some u =>
    simp [hm]
    split <;> rfl

theorem forward_sent_of_parse_none (env : Env) (rw : ResponseWriter) (req : Request)
    (body : Bytes) (redirectURL : String) (hparse : env.urlParse redirectURL = none) :
    (forward env rw req body redirectURL).sent = [] := by
  unfold forward
  simp [hparse]

theorem mergeQuery_eq (parsedURL : URL) (rawQuery : String) :
    mergeQuery parsedURL rawQuery =
      { parsedURL with RawQuery := mergedQuerySpec parsedURL.RawQuery rawQuery } := by
  unfold mergeQuery mergedQuerySpec
  split_ifs <;> simp_all

theorem mem_of_lookup_eq_some (k v : String) :
    ∀ kvs : List (String × String), kvs.lookup k = some v → ∃ kv ∈ kvs, kv.2 = v
  | [], h => by simp at h
  | (k1, v1) :: rest, h => by
    rw [List.lookup_cons] at h
    split at h
    · exact ⟨(k1, v1), List.mem_cons_self _ _, by simpa using h⟩
    · obtain ⟨kv, hkv, hv⟩ := mem_of_lookup_eq_some k v rest h
      exact ⟨kv, List.mem_cons_of_mem _ hkv, hv⟩

/-- The classifier forwards only POST requests on the activation path whose body was
read. -/
theorem classify_forward_inv (env : Env) (e : EndpointRedirect) (req : Request)
    (redirectURL : String) (body : Bytes) (h : classify env e req = .forward redirectURL body) :
    HasPrefix req.URL.Path e.webhookPath = true ∧ req.Method = "POST" ∧
      ioReadAll req.Body = some body := by
  by_cases hpath : HasPrefix req.URL.Path e.webhookPath = true
  swap
  · simp [classify, hpath] at h
  by_cases hpost : req.Method = "POST"
  swap
  · simp [classify, hpath, hpost] at h
  cases hread : ioReadAll req.Body with
  | none => simp [classify, hpath, hpost, hread] at h
  | some b =>
    refine ⟨hpath, hpost, ?_⟩
    cases hjson : env.jsonUnmarshal b with
    | none => simp [classify, hpath, hpost, hread, hjson] at h
    | some payload =>
      rw [classify_decoded env e req b payload hpath hpost hread hjson] at h
      split at h
      · cases h
      · split at h
        · cases h
        · split at h
          · cases h
          · split at h
            · cases h; rfl
            · split at h
              · cases h; rfl
              · cases h

/-- The handler a successful `New` returns holds the validated configuration. -/
theorem New_some (env : Env) (config : Config) (name : String) (e : EndpointRedirect)
    (h : (New env config name).1 = some e) :
    e.redirectMappings = config.RedirectMappings ∧ e.defaultRedirect = config.DefaultRedirect ∧
      ¬ InvalidConfig env config := by
  unfold New at h
  dsimp only at h
  cases hf : firstInvalid env (mapEntries (applyDefaults config).RedirectMappings) with
  | some k => simp [hf] at h
  | none =>
    simp only [hf] at h
    split_ifs at h with hd
    simp only [Option.some.injEq] at h
    subst h
    refine ⟨applyDefaults_mappings config, applyDefaults_default config, ?_⟩
    rw [applyDefaults_mappings] at hf
    rw [applyDefaults_default] at hd
    rintro (⟨kv, hkv, hnone⟩ | ⟨hne, hnone⟩)
    · exact (firstInvalid_eq_none env _).1 hf kv hkv hnone
    · exact hd ⟨hne, by simp [hnone]⟩

theorem dropWhile_of_forall_false {p : Char → Bool} :
    ∀ l : List Char, (∀ c ∈ l, p c = false) → l.dropWhile p = l
  | [], _ => rfl
  | c :: cs, h => by
    rw [List.dropWhile_cons, h c (List.mem_cons_self _ _)]
    rfl

theorem rdropWhile_of_forall_false {p : Char → Bool} (l : List Char)
    (h : ∀ c ∈ l, p c = false) : l.rdropWhile p = l := by
  unfold List.rdropWhile
  rw [dropWhile_of_forall_false l.reverse (fun c hc => h c (List.mem_reverse.1 hc)),
    List.reverse_reverse]

theorem TrimSpace_of_no_space (s : String) (h : ∀ c ∈ s.data, isSpace c = false) :
    TrimSpace s = s := by
  unfold TrimSpace
  rw [dropWhile_of_forall_false s.data h, rdropWhile_of_forall_false s.data h]

theorem isSpace_digitChar (k : Nat) (hk : k < 10) : isSpace (Nat.digitChar k) = false := by
  interval_cases k <;> decide

theorem toDigitsCore_no_space :
    ∀ (fuel n : Nat) (ds : List Char), (∀ c ∈ ds, isSpace c = false) →
      ∀ c ∈ Nat.toDigitsCore 10 fuel n ds, isSpace c = false
  | 0, _, ds, h => by simpa [Nat.toDigitsCore] using h
  | fuel + 1, n, ds, h => by
    have hd : ∀ c ∈ Nat.digitChar (n % 10) :: ds, isSpace c = false := by
      intro c hc
      rcases List.mem_cons.1 hc with rfl | hc
      · exact isSpace_digitChar _ (Nat.mod_lt _ (by decide))
      · exact h c hc
    unfold Nat.toDigitsCore
    dsimp only
    split_ifs
    · exact hd
    · exact toDigitsCore_no_space fuel (n / 10) _ hd

theorem toDigitsCore_ne_nil :
    ∀ (fuel n : Nat) (ds : List Char), (0 < fuel ∨ ds ≠ []) →
      Nat.toDigitsCore 10 fuel n ds ≠ []
  | 0, _, ds, h => by
    rcases h with h | h
    · exact absurd h (lt_irrefl 0)
    · simpa [Nat.toDigitsCore] using h
  | fuel + 1, n, ds, _ => by
    unfold Nat.toDigitsCore
    dsimp only
    split_ifs
    · exact List.cons_ne_nil _ _
    · exact toDigitsCore_ne_nil fuel (n / 10) _ (Or.inr (List.cons_ne_nil _ _))

theorem repr_no_space (n : Nat) : ∀ c ∈ (Nat.repr n).data, isSpace c = false := by
  intro c hc
  exact toDigitsCore_no_space (n + 1) n [] (fun _ h => by cases h) c
    (by simpa [Nat.repr, Nat.toDigits, List.asString] using hc)

theorem repr_ne_empty (n : Nat) : Nat.repr n ≠ "" := by
  intro h
  have h1 : (Nat.repr n).data = [] := by rw [h]
  exact toDigitsCore_ne_nil (n + 1) n [] (Or.inl (Nat.succ_pos n))
    (by simpa [Nat.repr, Nat.toDigits, List.asString] using h1)

theorem Sprintf0f_no_space (v : Float64) : ∀ c ∈ (Sprintf0f v).data, isSpace c = false := by
  intro c hc
  unfold Sprintf0f at hc
  rw [String.data_append] at hc
  rcases List.mem_append.1 hc with h | h
  · split_ifs at h
    · have : c = '-' := by simpa using h
      subst this
      decide
    · simp at h
  · exact repr_no_space _ c h

theorem Sprintf0f_ne_empty (v : Float64) : Sprintf0f v ≠ "" := by
  intro h
  have h1 : (Sprintf0f v).data = [] := by rw [h]
  unfold Sprintf0f at h1
  rw [String.data_append, List.append_eq_nil] at h1
  exact repr_ne_empty _ (String.ext h1.2)

theorem TrimSpace_Sprintf0f (v : Float64) : TrimSpace (Sprintf0f v) = Sprintf0f v :=
  TrimSpace_of_no_space _ (Sprintf0f_no_space v)

theorem excessBits_of_lt (fuel n : Nat) (h : n < 2 ^ 53) : excessBits fuel n = 0 := by
  cases fuel with
  | zero => rfl
  | succ f => rw [excessBits, if_pos h]

theorem nearestFloat64_of_lt (n : Nat) (h : n < 2 ^ 53) : nearestFloat64 n = some (n, 0) := by
  have hne : n ≠ 2 ^ 53 := Nat.ne_of_lt h
  simp only [nearestFloat64, excessBits_of_lt n n h, pow_zero, Nat.div_one, Nat.mod_one,
    Nat.mul_zero, Nat.zero_lt_one, if_true, if_neg hne]
  rfl

theorem nearestFloat64_two_pow_53 : nearestFloat64 (2 ^ 53) = some (2 ^ 52, 1) := by
  decide

/-- A natural number up to `2^53` is stored exactly. -/
theorem exactFloat64_of_le (n : Nat) (hn : n ≤ 2 ^ 53) : exactFloat64 n = true := by
  rcases Nat.lt_or_ge n (2 ^ 53) with h | h
  · simp [exactFloat64, nearestFloat64_of_lt n h]
  · have heq : n = 2 ^ 53 := le_antisymm hn h
    subst heq
    decide

/-- The rendering of the `float64` of a literal that is stored exactly and is not
`-0`. -/
theorem Sprintf0f_float64OfLiteral (l : JSONInteger) (v : Float64)
    (hexact : exactFloat64 l.magnitude = true) (hzero : l.magnitude = 0 → l.neg = false)
    (hv : float64OfLiteral l = some v) : Sprintf0f v = decimal l.value := by
  unfold float64OfLiteral at hv
  unfold exactFloat64 at hexact
  cases hn : nearestFloat64 l.magnitude with
  | none => simp [hn] at hv
  | some me =>
    obtain ⟨m, e⟩ := me
    simp only [hn, Option.some.injEq] at hv
    simp only [hn, beq_iff_eq] at hexact
    subst hv
    have hsign : (l.value < 0) ↔ l.neg = true := by
      unfold JSONInteger.value
      cases hneg : l.neg with
      | false => simp
      | true =>
        have hpos : l.magnitude ≠ 0 := fun h0 => by simpa [hneg] using hzero h0
        simp only [if_true, Left.neg_neg_iff, Nat.cast_pos, iff_true]
        exact Nat.pos_of_ne_zero hpos
    have habs : l.value.natAbs = l.magnitude := by
      unfold JSONInteger.value
      split_ifs <;> simp
    simp only [Sprintf0f, decimal, roundHalfEven, hexact, habs, hsign]

theorem roundHalfEven_negSucc (mant k : Nat) :
    roundHalfEven mant (Int.negSucc k) =
      if 2 * (mant % 2 ^ (k + 1)) < 2 ^ (k + 1) then mant / 2 ^ (k + 1)
      else if 2 ^ (k + 1) < 2 * (mant % 2 ^ (k + 1)) then mant / 2 ^ (k + 1) + 1
      else if mant / 2 ^ (k + 1) % 2 = 0 then mant / 2 ^ (k + 1)
      else mant / 2 ^ (k + 1) + 1 := rfl

/-- The value `roundHalfEven` returns is a nearest integer, and the even one of the
two at a tie. -/
theorem roundHalfEven_nearest (mant k : Nat) :
    2 * mant ≤ 2 * roundHalfEven mant (Int.negSucc k) * 2 ^ (k + 1) + 2 ^ (k + 1) ∧
      2 * roundHalfEven mant (Int.negSucc k) * 2 ^ (k + 1) ≤ 2 * mant + 2 ^ (k + 1) ∧
      ((2 * mant = 2 * roundHalfEven mant (Int.negSucc k) * 2 ^ (k + 1) + 2 ^ (k + 1) ∨
          2 * roundHalfEven mant (Int.negSucc k) * 2 ^ (k + 1) = 2 * mant + 2 ^ (k + 1)) →
        roundHalfEven mant (Int.negSucc k) % 2 = 0) := by
  have hd : 0 < 2 ^ (k + 1) := Nat.two_pow_pos (k + 1)
  have hdiv := Nat.div_add_mod mant (2 ^ (k + 1))
  have hlt := Nat.mod_lt mant hd
  rw [roundHalfEven_negSucc]
  generalize 2 ^ (k + 1) = d at *
  generalize mant / d = q at *
  generalize mant % d = r at *
  have hm : mant = d * q + r := hdiv.symm
  subst hm
  split_ifs with h1 h2 h3
  · refine ⟨by nlinarith, by nlinarith, ?_⟩
    rintro (h | h) <;> nlinarith
  · refine ⟨by nlinarith, by nlinarith, ?_⟩
    rintro (h | h) <;> nlinarith
  · refine ⟨by nlinarith, by nlinarith, fun _ => h3⟩
  · refine ⟨by nlinarith, by nlinarith, fun _ => ?_⟩
    omega

theorem valuesAt_cons (k : String) (vs : List String) (rest : Header) (name : String) :
    valuesAt ((k, vs) :: rest) name = if name = k then vs else valuesAt rest name := by
  unfold valuesAt
  rw [List.lookup_cons]
  by_cases h : name = k
  · simp [h]
  · have hb : (name == k) = false := by simpa using h
    simp [h, hb]

theorem valuesAt_appendValue (key value name : String) :
    ∀ h : Header, valuesAt (appendValue h key value) name =
      if name = key then valuesAt h key ++ [value] else valuesAt h name
  | [] => by
    rw [appendValue, valuesAt_cons]
    by_cases hn : name = key
    · simp [hn, valuesAt]
    · simp [hn, valuesAt]
  | (k, vs) :: rest => by
    have ih := valuesAt_appendValue key value name rest
    unfold appendValue
    by_cases hk : k = key
    · subst hk
      rw [if_pos rfl, valuesAt_cons, valuesAt_cons, valuesAt_cons]
      by_cases hn : name = k
      · simp [hn]
      · simp [hn]
    · have hk2 : ¬ key = k := fun h => hk h.symm
      rw [if_neg hk, valuesAt_cons, valuesAt_cons, valuesAt_cons, ih, if_neg hk2]
      by_cases hn : name = key
      · subst hn
        simp [hk2]
      · simp [hn]

theorem valuesAt_foldl_headerAdd (key name : String) :
    ∀ (vs : List String) (acc : Header),
      valuesAt (vs.foldl (fun a v => headerAdd a key v) acc) name =
        if name = CanonicalMIMEHeaderKey key then valuesAt acc name ++ vs else valuesAt acc name
  | [], acc => by simp
  | v :: vs, acc => by
    rw [List.foldl_cons, valuesAt_foldl_headerAdd key name vs, headerAdd, valuesAt_appendValue]
    by_cases hn : name = CanonicalMIMEHeaderKey key
    · simp [hn]
    · simp [hn]

theorem valuesAt_copyHeader (name : String) :
    ∀ src dst : Header, valuesAt (copyHeader src dst) name = valuesAt dst name ++ gathered src name
  | [], dst => by simp [copyHeader, gathered]
  | (k, vs) :: rest, dst => by
    have ih := valuesAt_copyHeader name rest (vs.foldl (fun a v => headerAdd a k v) dst)
    unfold copyHeader at ih ⊢
    rw [List.foldl_cons, ih, valuesAt_foldl_headerAdd, gathered]
    by_cases hn : name = CanonicalMIMEHeaderKey k
    · simp [hn]
    · have hn2 : ¬ CanonicalMIMEHeaderKey k = name := fun h => hn h.symm
      simp [hn, hn2]

theorem gathered_eq_nil (name : String) :
    ∀ h : Header, (∀ kv ∈ h, CanonicalMIMEHeaderKey kv.1 ≠ name) → gathered h name = []
  | [], _ => rfl
  | (k, vs) :: rest, hne => by
    rw [gathered, if_neg (hne (k, vs) (List.mem_cons_self _ _))]
    exact gathered_eq_nil name rest fun kv hkv => hne kv (List.mem_cons_of_mem _ hkv)

theorem gathered_of_nodup :
    ∀ h : Header, (h.map fun kv => CanonicalMIMEHeaderKey kv.1).Nodup →
      ∀ kv ∈ h, gathered h (CanonicalMIMEHeaderKey kv.1) = kv.2
  | [], _, kv, hkv => by cases hkv
  | (k, vs) :: rest, hnd, kv, hkv => by
    rw [List.map_cons, List.nodup_cons] at hnd
    rcases List.mem_cons.1 hkv with rfl | hmem
    · rw [gathered, if_pos rfl, gathered_eq_nil _ rest, List.append_nil]
      intro kv2 hkv2 heq
      exact hnd.1 (List.mem_map.2 ⟨kv2, hkv2, heq⟩)
    · have hne : CanonicalMIMEHeaderKey k ≠ CanonicalMIMEHeaderKey kv.1 := by
        intro heq
        exact hnd.1 (List.mem_map.2 ⟨kv, hmem, heq.symm⟩)
      rw [gathered, if_neg hne]
      exact gathered_of_nodup rest hnd.2 kv hmem

theorem infix_gathered :
    ∀ h : Header, ∀ kv ∈ h, kv.2 <:+: gathered h (CanonicalMIMEHeaderKey kv.1)
  | [], kv, hkv => by cases hkv
  | (k, vs) :: rest, kv, hkv => by
    rcases List.mem_cons.1 hkv with rfl | hmem
    · rw [gathered, if_pos rfl]
      exact ⟨[], gathered rest (CanonicalMIMEHeaderKey k), by simp⟩
    · have ih := infix_gathered rest kv hmem
      rw [gathered]
      split_ifs
      · obtain ⟨s, t, hst⟩ := ih
        exact ⟨vs ++ s, t, by simp [← hst]⟩
      · exact ih

theorem forward_of_parse_none (env : Env) (rw : ResponseWriter) (req : Request) (body : Bytes)
    (redirectURL : String) (hparse : env.urlParse redirectURL = none) :
    forward env rw req body redirectURL =
      ⟨(rw.WriteHeader 500).Write (bytesOf "Invalid redirect URL"), [], 1, []⟩ := by
  unfold forward
  simp only [hparse]

theorem forward_of_newRequest_none (env : Env) (rw : ResponseWriter) (req : Request)
    (body : Bytes) (redirectURL : String) (parsedURL : URL)
    (hparse : env.urlParse redirectURL = some parsedURL)
    (hnew : NewRequestWithContext env req.Method
      (env.urlString (mergeQuery parsedURL req.URL.RawQuery)) body = none) :
    forward env rw req body redirectURL =
      ⟨(rw.WriteHeader 500).Write (bytesOf "Failed to create redirect request"), [], 1, []⟩ := by
  unfold forward
  simp only [hparse, hnew]

theorem forward_of_do_none (env : Env) (rw : ResponseWriter) (req : Request) (body : Bytes)
    (redirectURL : String) (parsedURL : URL) (newReq : OutboundRequest)
    (hparse : env.urlParse redirectURL = some parsedURL)
    (hnew : NewRequestWithContext env req.Method
      (env.urlString (mergeQuery parsedURL req.URL.RawQuery)) body = some newReq)
    (hdo : env.clientDo { newReq with Header := copyHeader req.Header newReq.Header } = none) :
    forward env rw req body redirectURL =
      ⟨(rw.WriteHeader 502).Write (bytesOf "Failed to forward request"), [], 1,
        [{ newReq with Header := copyHeader req.Header newReq.Header }]⟩ := by
  unfold forward
  simp only [hparse, hnew, hdo]

theorem forward_of_do_some (env : Env) (rw : ResponseWriter) (req : Request) (body : Bytes)
    (redirectURL : String) (parsedURL : URL) (newReq : OutboundRequest) (resp : Response)
    (hparse : env.urlParse redirectURL = some parsedURL)
    (hnew : NewRequestWithContext env req.Method
      (env.urlString (mergeQuery parsedURL req.URL.RawQuery)) body = some newReq)
    (hdo : env.clientDo { newReq with Header := copyHeader req.Header newReq.Header } =
      some resp) :
    forward env rw req body redirectURL =
      ⟨⟨copyHeader resp.Header rw.header, rw.status ++ [resp.StatusCode],
          rw.written ++ resp.Body.data⟩, [], 1,
        [{ newReq with Header := copyHeader req.Header newReq.Header }]⟩ := by
  unfold forward
  simp only [hparse, hnew, hdo]
  rfl

/-- The request `http.NewRequestWithContext` returns has an empty header map. -/
theorem NewRequestWithContext_header (env : Env) (method url : String) (body : Bytes)
    (newReq : OutboundRequest) (h : NewRequestWithContext env method url body = some newReq) :
    newReq.Header = [] := by
  unfold NewRequestWithContext at h
  dsimp only at h
  split_ifs at h <;>
    (split at h
     · cases h
     · cases h
       rfl)

theorem dropWhile_eq_self_of_head {p : Char → Bool} :
    ∀ l : List Char, (∀ c, l.head? = some c → p c = false) → l.dropWhile p = l
  | [], _ => rfl
  | c :: cs, h => by
    rw [List.dropWhile_cons, h c rfl]
    rfl

theorem head_dropWhile_false {p : Char → Bool} :
    ∀ (l : List Char) (c : Char), (l.dropWhile p).head? = some c → p c = false
  | [], c, h => by simp at h
  | a :: as, c, h => by
    rw [List.dropWhile_cons] at h
    by_cases ha : p a = true
    · rw [if_pos ha] at h
      exact head_dropWhile_false as c h
    · rw [if_neg ha] at h
      simp only [List.head?_cons, Option.some.injEq] at h
      subst h
      simpa using ha

theorem head_of_initial {l m : List Char} (hpre : l <+: m) (c : Char) (h : l.head? = some c) :
    m.head? = some c := by
  obtain ⟨t, rfl⟩ := hpre
  cases l with
  | nil => simp at h
  | cons a as => simpa using h

theorem TrimSpace_idem (s : String) : TrimSpace (TrimSpace s) = TrimSpace s := by
  unfold TrimSpace
  have h1 : List.dropWhile isSpace (List.rdropWhile isSpace (List.dropWhile isSpace s.data)) =
      List.rdropWhile isSpace (List.dropWhile isSpace s.data) := by
    apply dropWhile_eq_self_of_head
    intro c hc
    exact head_dropWhile_false s.data c
      (head_of_initial ( List.rdropWhile_prefix isSpace _) c hc)
  simp only [h1, List.rdropWhile_idempotent]

theorem TrimSpace_empty : TrimSpace "" = "" := by decide

/-- The four ways the second half of `ServeHTTP` ends. -/
theorem forward_cases (env : Env) (rw : ResponseWriter) (req : Request) (body : Bytes)
    (redirectURL : String) :
    (env.urlParse redirectURL = none ∧
        forward env rw req body redirectURL =
          ⟨(rw.WriteHeader 500).Write (bytesOf "Invalid redirect URL"), [], 1, []⟩) ∨
      (∃ parsedURL, env.urlParse redirectURL = some parsedURL ∧
        NewRequestWithContext env req.Method
          (env.urlString (mergeQuery parsedURL req.URL.RawQuery)) body = none ∧
        forward env rw req body redirectURL =
          ⟨(rw.WriteHeader 500).Write (bytesOf "Failed to create redirect request"), [], 1,
            []⟩) ∨
      (∃ parsedURL newReq, env.urlParse redirectURL = some parsedURL ∧
        NewRequestWithContext env req.Method
          (env.urlString (mergeQuery parsedURL req.URL.RawQuery)) body = some newReq ∧
        env.clientDo (withCopiedHeader req newReq) = none ∧
        forward env rw req body redirectURL =
          ⟨(rw.WriteHeader 502).Write (bytesOf "Failed to forward request"), [], 1,
            [withCopiedHeader req newReq]⟩) ∨
      (∃ parsedURL newReq resp, env.urlParse redirectURL = some parsedURL ∧
        NewRequestWithContext env req.Method
          (env.urlString (mergeQuery parsedURL req.URL.RawQuery)) body = some newReq ∧
        env.clientDo (withCopiedHeader req newReq) = some resp ∧
        forward env rw req body redirectURL =
          ⟨⟨copyHeader resp.Header rw.header, rw.status ++ [resp.StatusCode],
              rw.written ++ resp.Body.data⟩, [], 1, [withCopiedHeader req newReq]⟩) := by
  cases hp : env.urlParse redirectURL with
  | none => exact Or.inl ⟨rfl, forward_of_parse_none env rw req body redirectURL hp⟩
  | some u =>
    right
    cases hn : NewRequestWithContext env req.Method
        (env.urlString (mergeQuery u req.URL.RawQuery)) body with
    | none => exact Or.inl ⟨u, rfl, hn, forward_of_newRequest_none env rw req body _ u hp hn⟩
    | some newReq =>
      right
      cases hd : env.clientDo (withCopiedHeader req newReq) with
      | none =>
        exact Or.inl ⟨u, newReq, rfl, hn, hd, forward_of_do_none env rw req body _ u newReq hp hn hd⟩
      | some resp =>
        exact Or.inr ⟨u, newReq, resp, rfl, hn, hd,
          forward_of_do_some env rw req body _ u newReq resp hp hn hd⟩

/-- The two ways the first half of `ServeHTTP` ends. -/
theorem ServeHTTP_cases (env : Env) (e : EndpointRedirect) (rw : ResponseWriter)
    (req : Request) :
    (∃ req1 reads, classify env e req = .passThrough req1 reads ∧
        ServeHTTP env e rw req = ⟨rw, [req1], reads, []⟩) ∨
      (∃ redirectURL body, classify env e req = .forward redirectURL body ∧
        ServeHTTP env e rw req = forward env rw req body redirectURL) := by
  unfold ServeHTTP
  cases hc : classify env e req with
  | passThrough req1 reads => exact Or.inl ⟨req1, reads, rfl, rfl⟩
  | forward redirectURL body => exact Or.inr ⟨redirectURL, body, rfl, rfl⟩

/-- Every request given to `client.Do` is the one built for the chosen destination,
with the headers of the original request copied onto an empty header map. -/
theorem mem_sent (env : Env) (e : EndpointRedirect) (rw : ResponseWriter) (req : Request)
    (out : OutboundRequest) (hout : out ∈ (ServeHTTP env e rw req).sent) :
    ∃ redirectURL body parsedURL newReq,
      classify env e req = .forward redirectURL body ∧
        ServeHTTP env e rw req = forward env rw req body redirectURL ∧
        env.urlParse redirectURL = some parsedURL ∧
        NewRequestWithContext env req.Method
          (env.urlString (mergeQuery parsedURL req.URL.RawQuery)) body = some newReq ∧
        out = withCopiedHeader req newReq ∧ out.Header = copyHeader req.Header [] ∧
        (ServeHTTP env e rw req).sent = [out] := by
  rcases ServeHTTP_cases env e rw req with ⟨req1, reads, -, hs⟩ | ⟨dest, body, hc, hs⟩
  · rw [hs] at hout
    cases hout
  · rw [hs] at hout
    rcases forward_cases env rw req body dest with ⟨-, hf⟩ | ⟨u, -, -, hf⟩ |
      ⟨u, newReq, hp, hn, -, hf⟩ | ⟨u, newReq, resp, hp, hn, -, hf⟩
    · rw [hf] at hout
      cases hout
    · rw [hf] at hout
      cases hout
    · rw [hf] at hout
      simp only [List.mem_singleton] at hout
      refine ⟨dest, body, u, newReq, hc, hs, hp, hn, hout, ?_, ?_⟩
      · rw [hout, withCopiedHeader, NewRequestWithContext_header env _ _ _ newReq hn]
      · rw [hs, hf, hout]
    · rw [hf] at hout
      simp only [List.mem_singleton] at hout
      refine ⟨dest, body, u, newReq, hc, hs, hp, hn, hout, ?_, ?_⟩
      · rw [hout, withCopiedHeader, NewRequestWithContext_header env _ _ _ newReq hn]
      · rw [hs, hf, hout]

theorem applyDefaults_fieldName (config : Config) :
    (applyDefaults config).FieldName =
      if config.FieldName = "" then "endpoint_id" else config.FieldName := by
  unfold applyDefaults
  dsimp only
  split_ifs <;> rfl

theorem applyDefaults_webhookPath (config : Config) :
    (applyDefaults config).WebhookPath =
      if config.WebhookPath = "" then "/webhooks" else config.WebhookPath := by
  unfold applyDefaults
  dsimp only
  split_ifs <;> rfl

theorem applyDefaults_statusCode (config : Config) :
    (applyDefaults config).StatusCode =
      if config.StatusCode = 0 then 302 else config.StatusCode := by
  unfold applyDefaults
  dsimp only
  split_ifs <;> rfl

/-- The result of `New` in terms of the configuration it was given. -/
theorem New_eq (env : Env) (config : Config) (name : String) :
    New env config name =
      match firstInvalid env (mapEntries config.RedirectMappings) with
      | some fieldValue => (none, some (.invalidRedirectURL fieldValue))
      | none =>
        if config.DefaultRedirect ≠ "" ∧ (env.urlParse config.DefaultRedirect).isNone then
          (none, some .invalidDefaultRedirectURL)
        else
          (some ⟨name, (applyDefaults config).FieldName, config.RedirectMappings,
            config.DefaultRedirect, (applyDefaults config).WebhookPath,
            (applyDefaults config).StatusCode⟩, none) := by
  unfold New
  dsimp only
  rw [applyDefaults_mappings, applyDefaults_default]

/-- `ServeHTTP` reads four fields of the handler only. -/
theorem ServeHTTP_congr (env : Env) (e1 e2 : EndpointRedirect) (rw : ResponseWriter)
    (req : Request) (hf : e1.fieldName = e2.fieldName)
    (hm : e1.redirectMappings = e2.redirectMappings)
    (hd : e1.defaultRedirect = e2.defaultRedirect) (hw : e1.webhookPath = e2.webhookPath) :
    ServeHTTP env e1 rw req = ServeHTTP env e2 rw req := by
  unfold ServeHTTP classify
  rw [hf, hm, hd, hw]

/-- The destination of a request whose field yields a non-empty string. -/
theorem classify_destination (env : Env) (e : EndpointRedirect) (req : Request) (body : Bytes)
    (payload : List (String × JValue)) (fieldValue : JValue) (fieldStr : String)
    (hpath : HasPrefix req.URL.Path e.webhookPath = true) (hpost : req.Method = "POST")
    (hread : ioReadAll req.Body = some body) (hjson : env.jsonUnmarshal body = some payload)
    (hfield : payload.lookup e.fieldName = some fieldValue)
    (hstr : fieldString fieldValue = some fieldStr) (hne : fieldStr ≠ "") :
    (classify env e req).destination =
      resolveSpec e.redirectMappings e.defaultRedirect (TrimSpace fieldStr) := by
  have hc := classify_decoded env e req body payload hpath hpost hread hjson
  simp only [hfield, hstr, if_neg hne] at hc
  rw [hc, resolveSpec]
  cases mapIndex e.redirectMappings (TrimSpace fieldStr) with
  | some mapped => rfl
  | none =>
    by_cases hd : e.defaultRedirect = ""
    · simp [hd, Decision.destination]
    · simp [hd, Decision.destination]

/-- A destination is a value of the mappings or the non-empty default. -/
theorem classify_forward_source (env : Env) (e : EndpointRedirect) (req : Request)
    (redirectURL : String) (body : Bytes) (h : classify env e req = .forward redirectURL body) :
    (∃ key, mapIndex e.redirectMappings key = some redirectURL) ∨
      (redirectURL = e.defaultRedirect ∧ e.defaultRedirect ≠ "") := by
  obtain ⟨hpath, hpost, hread⟩ := classify_forward_inv env e req redirectURL body h
  cases hjson : env.jsonUnmarshal body with
  | none => simp [classify, hpath, hpost, hread, hjson] at h
  | some payload =>
    rw [classify_decoded env e req body payload hpath hpost hread hjson] at h
    split at h
    · cases h
    · split at h
      · cases h
      · split at h
        · cases h
        · split at h
          · rename_i mapped hm
            cases h
            exact Or.inl ⟨_, hm⟩
          · split at h
            · rename_i hd
              cases h
              exact Or.inr ⟨rfl, hd⟩
            · cases h

/-- After a successful `New` every destination the handler can choose parses. -/
theorem destination_parses (env : Env) (config : Config) (name : String)
    (e : EndpointRedirect) (req : Request) (redirectURL : String) (body : Bytes)
    (hnew : (New env config name).1 = some e)
    (h : classify env e req = .forward redirectURL body) :
    ∃ parsedURL, env.urlParse redirectURL = some parsedURL := by
  obtain ⟨hmap, hdef, hvalid⟩ := New_some env config name e hnew
  cases hp : env.urlParse redirectURL with
  | some u => exact ⟨u, rfl⟩
  | none =>
    exfalso
    apply hvalid
    rcases classify_forward_source env e req redirectURL body h with ⟨key, hk⟩ | ⟨hd, hne⟩
    · left
      rw [← hmap]
      cases hrm : e.redirectMappings with
      | none => simp [mapIndex, hrm] at hk
      | some kvs =>
        simp only [mapIndex, hrm] at hk
        obtain ⟨kv, hkv, hv⟩ := mem_of_lookup_eq_some _ _ kvs hk
        exact ⟨kv, hkv, by rw [hv]; exact hp⟩
    · right
      rw [← hdef, ← hd]
      exact ⟨by rw [hd]; exact hne, hp⟩

/-! ## Properties of the handler -/

/-- C8 (path gate): a request whose path does not start with the activation path is
handed to the next handler as it came: the body is not read, the handler writes
nothing to the response and sends nothing upstream. -/
theorem path_gate_passes_untouched (env : Env) (e : EndpointRedirect) (rw : ResponseWriter)
    (req : Request) (hpath : HasPrefix req.URL.Path e.webhookPath = false) :
    (ServeHTTP env e rw req).next = [req] ∧ (ServeHTTP env e rw req).reads = 0 ∧
      (ServeHTTP env e rw req).rw = rw ∧ (ServeHTTP env e rw req).sent = [] := by
  simp [ServeHTTP, classify, hpath]

theorem path_gate_passes_untouched_witness :
    HasPrefix "/other-path" sampleHandler.webhookPath = false ∧
      (ServeHTTP sampleEnv sampleHandler freshWriter
          ⟨"GET", ⟨"", "", "/other-path", "", ""⟩, [], ⟨[], false⟩⟩).next =
        [⟨"GET", ⟨"", "", "/other-path", "", ""⟩, [], ⟨[], false⟩⟩] :=
  ⟨by decide,
    (path_gate_passes_untouched sampleEnv sampleHandler freshWriter
      ⟨"GET", ⟨"", "", "/other-path", "", ""⟩, [], ⟨[], false⟩⟩ (by decide)).1⟩

/-- C9 (missing field): a POST request on the activation path whose body decodes to
a JSON object without the configured field as a top-level key goes to the next
handler, with the body restored, and nothing is forwarded, whatever the mappings and
the default destination. -/
theorem missing_field_passes_through (env : Env) (e : EndpointRedirect) (rw : ResponseWriter)
    (req : Request) (body : Bytes) (payload : List (String × JValue))
    (hpath : HasPrefix req.URL.Path e.webhookPath = true) (hpost : req.Method = "POST")
    (hread : ioReadAll req.Body = some body) (hjson : env.jsonUnmarshal body = some payload)
    (hmissing : ∀ kv ∈ payload, kv.1 ≠ e.fieldName) :
    (ServeHTTP env e rw req).next = [restored req body] ∧ (ServeHTTP env e rw req).sent = [] ∧
      (ServeHTTP env e rw req).rw = rw := by
  have hc := classify_decoded env e req body payload hpath hpost hread hjson
  rw [lookup_eq_none_of_forall_ne e.fieldName payload hmissing] at hc
  simp [ServeHTTP, hc]

theorem missing_field_passes_through_witness :
    (ServeHTTP sampleEnv defaultHandler freshWriter
        (postWebhook "" "\x7b\"type\":\"DOCUMENT.RECEIVED\"\x7d")).next =
      [postWebhook "" "\x7b\"type\":\"DOCUMENT.RECEIVED\"\x7d"] ∧
    (ServeHTTP sampleEnv defaultHandler freshWriter
        (postWebhook "" "\x7b\"type\":\"DOCUMENT.RECEIVED\"\x7d")).sent = [] :=
  have h := missing_field_passes_through sampleEnv defaultHandler freshWriter
    (postWebhook "" "\x7b\"type\":\"DOCUMENT.RECEIVED\"\x7d")
    (bytesOf "\x7b\"type\":\"DOCUMENT.RECEIVED\"\x7d")
    [("type", .string "DOCUMENT.RECEIVED")] (by decide) (by decide) (by decide) rfl
    (by decide)
  ⟨h.1, h.2.1⟩

/-- C10 (other JSON types): a POST request on the activation path whose configured
field holds a value that is neither a string nor a number (a boolean, an object, an
array or null) goes to the next handler and nothing is forwarded, also when a
default destination is configured. -/
theorem other_type_passes_through (env : Env) (e : EndpointRedirect) (rw : ResponseWriter)
    (req : Request) (body : Bytes) (payload : List (String × JValue)) (fieldValue : JValue)
    (hpath : HasPrefix req.URL.Path e.webhookPath = true) (hpost : req.Method = "POST")
    (hread : ioReadAll req.Body = some body) (hjson : env.jsonUnmarshal body = some payload)
    (hfield : payload.lookup e.fieldName = some fieldValue)
    (hstr : ∀ s, fieldValue ≠ .string s) (hnum : ∀ v, fieldValue ≠ .number v) :
    (ServeHTTP env e rw req).next = [restored req body] ∧ (ServeHTTP env e rw req).sent = [] ∧
      (ServeHTTP env e rw req).rw = rw := by
  have hc := classify_decoded env e req body payload hpath hpost hread hjson
  rw [hfield] at hc
  simp only [fieldString_eq_none fieldValue hstr hnum] at hc
  simp [ServeHTTP, hc]

theorem other_type_passes_through_witness :
    defaultHandler.defaultRedirect = "http://d.example/default" ∧
    (ServeHTTP sampleEnv defaultHandler freshWriter
        (postWebhook "" "\x7b\"endpoint_id\":true\x7d")).next =
      [postWebhook "" "\x7b\"endpoint_id\":true\x7d"] ∧
    (ServeHTTP sampleEnv defaultHandler freshWriter
        (postWebhook "" "\x7b\"endpoint_id\":true\x7d")).sent = [] :=
  have h := other_type_passes_through sampleEnv defaultHandler freshWriter
    (postWebhook "" "\x7b\"endpoint_id\":true\x7d")
    (bytesOf "\x7b\"endpoint_id\":true\x7d")
    [("endpoint_id", .bool true)] (.bool true) (by decide) (by decide) (by decide) rfl
    rfl (fun _ h => by cases h) (fun _ h => by cases h)
  ⟨rfl, h.1, h.2.1⟩

/-- C2 (body restoration round trip): for a POST request on the activation path whose
body is read successfully, the read leaves the incoming stream exhausted (read again
it delivers nothing), yet every request the next handler receives is the original
one with a fresh body stream that, read in full, yields exactly the bytes read; and a
body that does not decode as JSON always ends at the next handler, nothing being
written or forwarded. -/
theorem body_restored_on_pass_through (env : Env) (e : EndpointRedirect) (rw : ResponseWriter)
    (req : Request) (body : Bytes) (hpath : HasPrefix req.URL.Path e.webhookPath = true)
    (hpost : req.Method = "POST") (hread : ioReadAll req.Body = some body) :
    ioReadAll (afterReadAll req.Body) = some [] ∧
      (∀ req1 ∈ (ServeHTTP env e rw req).next,
        req1.Body = newBuffer body ∧ ioReadAll req1.Body = some body ∧
          (body ≠ [] → req1.Body ≠ afterReadAll req.Body) ∧
          req1.Method = req.Method ∧ req1.URL = req.URL ∧ req1.Header = req.Header) ∧
      (env.jsonUnmarshal body = none →
        (ServeHTTP env e rw req).next = [restored req body] ∧
          (ServeHTTP env e rw req).sent = [] ∧ (ServeHTTP env e rw req).rw = rw) := by
  have hfails : req.Body.fails = false := by
    unfold ioReadAll at hread
    split_ifs at hread with hf
    simpa using hf
  refine ⟨by simp [ioReadAll, afterReadAll, hfails], ?_, ?_⟩
  · intro req1 hmem
    unfold ServeHTTP at hmem
    cases hc : classify env e req with
    | passThrough r n =>
      simp only [hc, List.mem_singleton] at hmem
      obtain ⟨hr, -⟩ := classify_passThrough_restored env e req body hpath hpost hread r n hc
      subst hmem
      subst hr
      refine ⟨rfl, by simp [restored, ioReadAll, newBuffer], ?_, rfl, rfl, rfl⟩
      intro hne heq
      have hd := congrArg Body.data heq
      exact hne (by simpa [restored, newBuffer, afterReadAll] using hd)
    | forward u b =>
      simp only [hc, forward_next] at hmem
      cases hmem
  · intro hjson
    simp [ServeHTTP, classify, hpath, hpost, hread, hjson, restored]

theorem body_restored_on_pass_through_witness :
    ioReadAll (afterReadAll (postWebhook "" "invalid json").Body) = some [] ∧
      (∀ req1 ∈ (ServeHTTP sampleEnv defaultHandler freshWriter
          (postWebhook "" "invalid json")).next,
        ioReadAll req1.Body = some (bytesOf "invalid json") ∧
          req1.Body ≠ afterReadAll (postWebhook "" "invalid json").Body) ∧
      (ServeHTTP sampleEnv defaultHandler freshWriter (postWebhook "" "invalid json")).next =
        [restored (postWebhook "" "invalid json") (bytesOf "invalid json")] :=
  have h := body_restored_on_pass_through sampleEnv defaultHandler freshWriter
    (postWebhook "" "invalid json") (bytesOf "invalid json") (by decide) (by decide)
    (by decide)
  ⟨h.1, fun r hr => ⟨(h.2.1 r hr).2.1, (h.2.1 r hr).2.2.1 (by decide)⟩, (h.2.2 rfl).1⟩

/-- C6 (construction): `New` returns a nil handler together with an error exactly when
a value of `RedirectMappings`, or a non-empty `DefaultRedirect`, fails URL parsing;
in every other case it returns a handler and a nil error. -/
theorem New_fails_iff_invalid_url (env : Env) (config : Config) (name : String) :
    (InvalidConfig env config ↔
        (New env config name).1 = none ∧ (New env config name).2 ≠ none) ∧
      (¬ InvalidConfig env config ↔
        (New env config name).1 ≠ none ∧ (New env config name).2 = none) := by
  have key : (InvalidConfig env config →
        (New env config name).1 = none ∧ (New env config name).2 ≠ none) ∧
      (¬ InvalidConfig env config →
        (New env config name).1 ≠ none ∧ (New env config name).2 = none) := by
    unfold New InvalidConfig
    dsimp only
    rw [applyDefaults_mappings, applyDefaults_default]
    cases hf : firstInvalid env (mapEntries config.RedirectMappings) with
    | some k =>
      have hex : ∃ kv ∈ mapEntries config.RedirectMappings, env.urlParse kv.2 = none := by
        by_contra hno
        have := (firstInvalid_eq_none env _).2 (fun kv hkv hnone => hno ⟨kv, hkv, hnone⟩)
        rw [hf] at this
        cases this
      exact ⟨fun _ => by simp, fun hn => absurd (Or.inl hex) hn⟩
    | none =>
      have hall := (firstInvalid_eq_none env _).1 hf
      by_cases hd : config.DefaultRedirect ≠ "" ∧ env.urlParse config.DefaultRedirect = none
      · have hd2 : config.DefaultRedirect ≠ "" ∧
            (env.urlParse config.DefaultRedirect).isNone = true := ⟨hd.1, by simp [hd.2]⟩
        exact ⟨fun _ => by rw [if_pos hd2]; simp, fun hn => absurd (Or.inr hd) hn⟩
      · have hd2 : ¬ (config.DefaultRedirect ≠ "" ∧
            (env.urlParse config.DefaultRedirect).isNone = true) := by
          rintro ⟨h1, h2⟩
          exact hd ⟨h1, by simpa using h2⟩
        refine ⟨?_, fun _ => by rw [if_neg hd2]; simp⟩
        rintro (⟨kv, hkv, hnone⟩ | h)
        · exact absurd hnone (hall kv hkv)
        · exact absurd h hd
  refine ⟨⟨key.1, fun h => ?_⟩, ⟨key.2, fun h => ?_⟩⟩
  · by_contra hn
    exact (key.2 hn).1 h.1
  · intro hi
    exact h.1 (key.1 hi).1

/-- C1 (destination resolution): for a handler built by `New` and a POST request on the
activation path whose body yields a non-empty routing key, the destination `ServeHTTP`
chooses is the one of the reference definition: the mapped URL when the key is mapped
(also when a default is configured), else the non-empty default, else none.  With a
destination the next handler is not called and the only request sent upstream goes
to that destination; with none the next handler gets the restored request and
nothing is sent. -/
theorem destination_resolution (env : Env) (config : Config) (name : String)
    (e : EndpointRedirect) (rw : ResponseWriter) (req : Request) (body : Bytes)
    (payload : List (String × JValue)) (fieldValue : JValue) (fieldStr : String)
    (hnew : (New env config name).1 = some e)
    (hpath : HasPrefix req.URL.Path e.webhookPath = true) (hpost : req.Method = "POST")
    (hread : ioReadAll req.Body = some body) (hjson : env.jsonUnmarshal body = some payload)
    (hfield : payload.lookup e.fieldName = some fieldValue)
    (hstr : fieldString fieldValue = some fieldStr) (hkey : TrimSpace fieldStr ≠ "") :
    (classify env e req).destination =
        resolveSpec e.redirectMappings e.defaultRedirect (TrimSpace fieldStr) ∧
      (∀ dest, (classify env e req).destination = some dest →
        ∃ parsedURL, env.urlParse dest = some parsedURL ∧
          (ServeHTTP env e rw req).next = [] ∧
          (ServeHTTP env e rw req).sent =
            if (env.urlParse (env.urlString (mergeQuery parsedURL req.URL.RawQuery))).isSome
            then [outboundFor env req body parsedURL] else []) ∧
      ((classify env e req).destination = none →
        (ServeHTTP env e rw req).next = [restored req body] ∧
          (ServeHTTP env e rw req).sent = [] ∧ (ServeHTTP env e rw req).rw = rw) := by
  have hne : fieldStr ≠ "" := by
    rintro rfl
    exact hkey (by decide)
  obtain ⟨hmap, hdef, hvalid⟩ := New_some env config name e hnew
  have hc := classify_decoded env e req body payload hpath hpost hread hjson
  simp only [hfield, hstr, if_neg hne] at hc
  cases hm : mapIndex e.redirectMappings (TrimSpace fieldStr) with
  | some mapped =>
    simp only [hm] at hc
    have hparse : ∃ parsedURL, env.urlParse mapped = some parsedURL := by
      cases hp : env.urlParse mapped with
      | some u => exact ⟨u, rfl⟩
      | none =>
        exfalso
        apply hvalid
        left
        rw [← hmap]
        cases hrm : e.redirectMappings with
        | none => simp [mapIndex, hrm] at hm
        | some kvs =>
          simp only [mapIndex, hrm] at hm
          obtain ⟨kv, hkv, hv⟩ := mem_of_lookup_eq_some _ _ kvs hm
          exact ⟨kv, hkv, by rw [hv]; exact hp⟩
    refine ⟨by simp [hc, Decision.destination, resolveSpec, hm], ?_, ?_⟩
    · intro dest hdest
      simp only [hc, Decision.destination, Option.some.injEq] at hdest
      subst hdest
      obtain ⟨u, hu⟩ := hparse
      refine ⟨u, hu, ?_, ?_⟩
      · simp [ServeHTTP, hc, forward_next]
      · simp only [ServeHTTP, hc]
        exact forward_sent env rw req body _ u hpost hu
    · intro hnone
      simp [hc, Decision.destination] at hnone
  | none =>
    simp only [hm] at hc
    by_cases hd : e.defaultRedirect = ""
    · simp only [hd, ne_eq, not_true_eq_false, if_false] at hc
      refine ⟨by simp [hc, Decision.destination, resolveSpec, hm, hd], ?_, ?_⟩
      · intro dest hdest
        simp [hc, Decision.destination] at hdest
      · intro _
        simp [ServeHTTP, hc]
    · simp only [ne_eq, hd, not_false_eq_true, if_true] at hc
      have hparse : ∃ parsedURL, env.urlParse e.defaultRedirect = some parsedURL := by
        cases hp : env.urlParse e.defaultRedirect with
        | some u => exact ⟨u, rfl⟩
        | none =>
          exfalso
          apply hvalid
          right
          rw [← hdef]
          exact ⟨hd, hp⟩
      refine ⟨by simp [hc, Decision.destination, resolveSpec, hm, hd], ?_, ?_⟩
      · intro dest hdest
        simp only [hc, Decision.destination, Option.some.injEq] at hdest
        subst hdest
        obtain ⟨u, hu⟩ := hparse
        refine ⟨u, hu, ?_, ?_⟩
        · simp [ServeHTTP, hc, forward_next]
        · simp only [ServeHTTP, hc]
          exact forward_sent env rw req body _ u hpost hu
      · intro hnone
        simp [hc, Decision.destination] at hnone

theorem destination_resolution_witness :
    (New sampleEnv sampleConfig "test-plugin").1 = some sampleHandler ∧
      (classify sampleEnv sampleHandler
          (postWebhook "a=1" "\x7b\"endpoint_id\":\"KHUID000001\"\x7d")).destination =
        some "http://a.example/hook" :=
  ⟨by decide,
    (destination_resolution sampleEnv sampleConfig "test-plugin" sampleHandler freshWriter
      (postWebhook "a=1" "\x7b\"endpoint_id\":\"KHUID000001\"\x7d")
      (bytesOf "\x7b\"endpoint_id\":\"KHUID000001\"\x7d")
      [("endpoint_id", .string "KHUID000001")] (.string "KHUID000001") "KHUID000001"
      (by decide) (by decide) (by decide) (by decide) rfl rfl rfl (by decide)).1⟩

/-- C5 (query merge): every request `ServeHTTP` sends upstream goes to the resolved
destination with its raw query replaced by the merge of its own raw query `d` and
the raw query `q` of the original request: `d` when `q` is empty, `q` when `q` is
not empty and `d` is, and `d`, an ampersand and `q` when neither is empty. -/
theorem query_merge (env : Env) (e : EndpointRedirect) (rw : ResponseWriter) (req : Request)
    (out : OutboundRequest) (hout : out ∈ (ServeHTTP env e rw req).sent) :
    ∃ dest parsedURL, (classify env e req).destination = some dest ∧
      env.urlParse dest = some parsedURL ∧
      out.URL = env.urlString
        { parsedURL with RawQuery := mergedQuerySpec parsedURL.RawQuery req.URL.RawQuery } ∧
      mergedQuerySpec parsedURL.RawQuery req.URL.RawQuery =
        (if req.URL.RawQuery = "" then parsedURL.RawQuery
         else if parsedURL.RawQuery = "" then req.URL.RawQuery
         else parsedURL.RawQuery ++ "&" ++ req.URL.RawQuery) := by
  unfold ServeHTTP at hout
  cases hc : classify env e req with
  | passThrough r n => simp [hc] at hout
  | forward dest body =>
    simp only [hc] at hout
    obtain ⟨-, hpost, -⟩ := classify_forward_inv env e req dest body hc
    cases hp : env.urlParse dest with
    | none => simp [forward_sent_of_parse_none env rw req body dest hp] at hout
    | some u =>
      rw [forward_sent env rw req body dest u hpost hp] at hout
      split_ifs at hout
      · simp only [List.mem_singleton] at hout
        subst hout
        exact ⟨dest, u, rfl, hp, by simp [outboundFor, mergeQuery_eq], rfl⟩
      · cases hout

theorem query_merge_witness :
    (⟨"POST", "http://b.example/hook?b=2&a=1", [("Content-Type", ["application/json"])],
          bytesOf "\x7b\"endpoint_id\":\"KHUID000001\"\x7d"⟩ : OutboundRequest) ∈
        (ServeHTTP sampleEnv queryHandler freshWriter
          (postWebhook "a=1" "\x7b\"endpoint_id\":\"KHUID000001\"\x7d")).sent ∧
      mergedQuerySpec "b=2" "a=1" = "b=2&a=1" ∧ mergedQuerySpec "" "a=1" = "a=1" ∧
      ∃ dest parsedURL,
        (classify sampleEnv queryHandler
          (postWebhook "a=1" "\x7b\"endpoint_id\":\"KHUID000001\"\x7d")).destination =
            some dest ∧
        sampleEnv.urlParse dest = some parsedURL ∧
        "http://b.example/hook?b=2&a=1" = sampleEnv.urlString
          { parsedURL with RawQuery := mergedQuerySpec parsedURL.RawQuery "a=1" } :=
  ⟨by decide, by decide, by decide,
    let ⟨dest, parsedURL, h1, h2, h3, _⟩ := query_merge sampleEnv queryHandler freshWriter
      (postWebhook "a=1" "\x7b\"endpoint_id\":\"KHUID000001\"\x7d")
      ⟨"POST", "http://b.example/hook?b=2&a=1", [("Content-Type", ["application/json"])],
        bytesOf "\x7b\"endpoint_id\":\"KHUID000001\"\x7d"⟩ (by decide)
    ⟨dest, parsedURL, h1, h2, h3⟩⟩

/-- C3 (whitespace-only field), evaluated at the failing input: with a default
destination configured, a POST to `/webhooks` whose `endpoint_id` is the string of
three blanks is not handed to the next handler.  The emptiness test of line 143 runs
before the trim of line 149, so the key becomes the empty string and the request is
forwarded to the default destination. -/
theorem whitespace_only_field_is_forwarded :
    TrimSpace "   " = "" ∧
      (classify sampleEnv defaultHandler
          (postWebhook "" "\x7b\"endpoint_id\":\"   \"\x7d")).destination =
        some "http://d.example/default" ∧
      (ServeHTTP sampleEnv defaultHandler freshWriter
          (postWebhook "" "\x7b\"endpoint_id\":\"   \"\x7d")).next = [] ∧
      (ServeHTTP sampleEnv defaultHandler freshWriter
          (postWebhook "" "\x7b\"endpoint_id\":\"   \"\x7d")).sent =
        [⟨"POST", "http://d.example/default", [("Content-Type", ["application/json"])],
          bytesOf "\x7b\"endpoint_id\":\"   \"\x7d"⟩] := by
  decide

/-- C4, refuted as stated, at two inputs.  The JSON number `9007199254740993`
(`2^53 + 1`) is stored as the `float64` `2^53`, so it is looked up under
`"9007199254740992"` and passes through, while the JSON string `"9007199254740993"`
is forwarded to its mapping.  The JSON number `-0`, whose value is the integer 0, is
stored as negative zero and looked up under `"-0"`, so it passes through, while the
JSON string `"0"` is forwarded to its mapping. -/
theorem integer_number_counterexample :
    (float64OfLiteral ⟨false, 9007199254740993⟩ = some ⟨false, 4503599627370496, 1⟩ ∧
      Sprintf0f ⟨false, 4503599627370496, 1⟩ = "9007199254740992" ∧
      decimal 9007199254740993 = "9007199254740993" ∧
      (classify sampleEnv bigHandler
          (postWebhook "" "\x7b\"endpoint_id\":9007199254740993\x7d")).destination = none ∧
      (classify sampleEnv bigHandler
          (postWebhook "" "\x7b\"endpoint_id\":\"9007199254740993\"\x7d")).destination =
        some "http://a.example/hook") ∧
    (float64OfLiteral ⟨true, 0⟩ = some ⟨true, 0, 0⟩ ∧
      JSONInteger.value ⟨true, 0⟩ = 0 ∧ exactFloat64 0 = true ∧
      Sprintf0f ⟨true, 0, 0⟩ = "-0" ∧ decimal 0 = "0" ∧
      (classify sampleEnv zeroHandler
          (postWebhook "" "\x7b\"endpoint_id\":-0\x7d")).destination = none ∧
      (classify sampleEnv zeroHandler
          (postWebhook "" "\x7b\"endpoint_id\":\"0\"\x7d")).destination =
        some "http://a.example/hook") := by
  decide

/-- C4, amended: for every integer-valued JSON number that a `float64` holds exactly
(every magnitude up to `2^53` is held exactly) and that is not the literal `-0`, a
POST request on the activation path whose configured field is that number gets the
same decision (the same pass-through or the same destination) as the request whose
field is the JSON string with the base-10 rendering of the integer: the number is
looked up under that rendering. -/
theorem integer_number_classified_as_string (env : Env) (e : EndpointRedirect)
    (req1 req2 : Request) (body1 body2 : Bytes) (payload1 payload2 : List (String × JValue))
    (l : JSONInteger) (v : Float64) (hexact : exactFloat64 l.magnitude = true)
    (hzero : l.magnitude = 0 → l.neg = false) (hv : float64OfLiteral l = some v)
    (hpath1 : HasPrefix req1.URL.Path e.webhookPath = true) (hpost1 : req1.Method = "POST")
    (hread1 : ioReadAll req1.Body = some body1)
    (hjson1 : env.jsonUnmarshal body1 = some payload1)
    (hfield1 : payload1.lookup e.fieldName = some (.number v))
    (hpath2 : HasPrefix req2.URL.Path e.webhookPath = true) (hpost2 : req2.Method = "POST")
    (hread2 : ioReadAll req2.Body = some body2)
    (hjson2 : env.jsonUnmarshal body2 = some payload2)
    (hfield2 : payload2.lookup e.fieldName = some (.string (decimal l.value))) :
    fieldString (.number v) = some (decimal l.value) ∧
      (classify env e req1).destination = (classify env e req2).destination ∧
      ∀ k : Nat, k ≤ 2 ^ 53 → exactFloat64 k = true := by
  have hs : Sprintf0f v = decimal l.value := Sprintf0f_float64OfLiteral l v hexact hzero hv
  have h1 := classify_decoded env e req1 body1 payload1 hpath1 hpost1 hread1 hjson1
  have h2 := classify_decoded env e req2 body2 payload2 hpath2 hpost2 hread2 hjson2
  simp only [hfield1, fieldString, hs] at h1
  simp only [hfield2, fieldString] at h2
  refine ⟨by simp [fieldString, hs], ?_, exactFloat64_of_le⟩
  rw [h1, h2]
  split_ifs <;> first | rfl | (split <;> rfl)

theorem integer_number_classified_as_string_witness :
    decimal (JSONInteger.value ⟨false, 42⟩) = "42" ∧
      float64OfLiteral ⟨false, 42⟩ = some ⟨false, 42, 0⟩ ∧
      exactFloat64 18014398509481984 = true ∧ exactFloat64 9007199254740993 = false ∧
      (classify sampleEnv roundingHandler
          (postWebhook "" "\x7b\"endpoint_id\":42\x7d")).destination =
        (classify sampleEnv roundingHandler
          (postWebhook "" "\x7b\"endpoint_id\":\"42\"\x7d")).destination :=
  ⟨by decide, by decide, by decide, by decide,
    (integer_number_classified_as_string sampleEnv roundingHandler
      (postWebhook "" "\x7b\"endpoint_id\":42\x7d")
      (postWebhook "" "\x7b\"endpoint_id\":\"42\"\x7d")
      (bytesOf "\x7b\"endpoint_id\":42\x7d") (bytesOf "\x7b\"endpoint_id\":\"42\"\x7d")
      [("endpoint_id", .number ⟨false, 42, 0⟩)] [("endpoint_id", .string "42")] ⟨false, 42⟩
      ⟨false, 42, 0⟩ (by decide) (by decide) (by decide) (by decide) (by decide) (by decide)
      rfl rfl (by decide) (by decide) (by decide) rfl rfl).2.1⟩

/-- C7, refuted as stated: the JSON number `42.7`, stored as the `float64`
`6009490752772506 * 2^-47`, has a fractional part and integer part 42, yet it is
rendered `"43"` and the request goes to the destination mapped under `"43"`, not to
the one mapped under `"42"`. -/
theorem fractional_number_counterexample :
    hasFraction 6009490752772506 (-47) = true ∧
      Nat.repr (truncToInt 6009490752772506 (-47)) = "42" ∧
      fieldString (.number ⟨false, 6009490752772506, -47⟩) = some "43" ∧
      mapIndex roundingHandler.redirectMappings "42" = some "http://a.example/hook" ∧
      (classify sampleEnv roundingHandler
          (postWebhook "" "\x7b\"endpoint_id\":42.7\x7d")).destination =
        some "http://d.example/default" := by
  decide

/-- C7, amended: for every POST request on the activation path whose configured field
is a JSON number with a non-zero fractional part, the routing key is the base-10
rendering of the value rounded to a nearest integer, the even one at a tie, after a
minus sign when the value is negative; the destination is resolved under that key. -/
theorem fractional_number_rounds_to_nearest (env : Env) (e : EndpointRedirect) (req : Request)
    (body : Bytes) (payload : List (String × JValue)) (v : Float64)
    (hpath : HasPrefix req.URL.Path e.webhookPath = true) (hpost : req.Method = "POST")
    (hread : ioReadAll req.Body = some body) (hjson : env.jsonUnmarshal body = some payload)
    (hfield : payload.lookup e.fieldName = some (.number v))
    (hfrac : hasFraction v.mant v.exp = true) :
    ∃ k N : Nat, v.exp = Int.negSucc k ∧
      (classify env e req).destination =
          resolveSpec e.redirectMappings e.defaultRedirect
            ((if v.neg then "-" else "") ++ Nat.repr N) ∧
        2 * v.mant ≤ 2 * N * 2 ^ (k + 1) + 2 ^ (k + 1) ∧
        2 * N * 2 ^ (k + 1) ≤ 2 * v.mant + 2 ^ (k + 1) ∧
        ((2 * v.mant = 2 * N * 2 ^ (k + 1) + 2 ^ (k + 1) ∨
            2 * N * 2 ^ (k + 1) = 2 * v.mant + 2 ^ (k + 1)) → N % 2 = 0) := by
  cases hexp : v.exp with
  | ofNat j => simp [hasFraction, hexp] at hfrac
  | negSucc k =>
    refine ⟨k, roundHalfEven v.mant (Int.negSucc k), rfl, ?_, roundHalfEven_nearest v.mant k⟩
    have hkey : (if v.neg then "-" else "") ++
        Nat.repr (roundHalfEven v.mant (Int.negSucc k)) = Sprintf0f v := by
      simp [Sprintf0f, hexp]
    have hc := classify_decoded env e req body payload hpath hpost hread hjson
    simp only [hfield, fieldString, if_neg (Sprintf0f_ne_empty v), TrimSpace_Sprintf0f] at hc
    rw [hkey, hc, resolveSpec]
    cases mapIndex e.redirectMappings (Sprintf0f v) with
    | some mapped => rfl
    | none =>
      by_cases hd : e.defaultRedirect = ""
      · simp [hd, Decision.destination]
      · simp [hd, Decision.destination]

theorem fractional_number_rounds_to_nearest_witness :
    hasFraction 6009490752772506 (-47) = true ∧
      ∃ k N : Nat, (-47 : Int) = Int.negSucc k ∧
        (classify sampleEnv roundingHandler
            (postWebhook "" "\x7b\"endpoint_id\":42.7\x7d")).destination =
          resolveSpec roundingHandler.redirectMappings roundingHandler.defaultRedirect
            ((if false then "-" else "") ++ Nat.repr N) ∧
        2 * 6009490752772506 ≤ 2 * N * 2 ^ (k + 1) + 2 ^ (k + 1) ∧
        2 * N * 2 ^ (k + 1) ≤ 2 * 6009490752772506 + 2 ^ (k + 1) :=
  ⟨by decide,
    let ⟨k, N, h0, h1, h2, h3, _⟩ := fractional_number_rounds_to_nearest sampleEnv
      roundingHandler (postWebhook "" "\x7b\"endpoint_id\":42.7\x7d")
      (bytesOf "\x7b\"endpoint_id\":42.7\x7d")
      [("endpoint_id", .number ⟨false, 6009490752772506, -47⟩)]
      ⟨false, 6009490752772506, -47⟩ (by decide) (by decide) (by decide) rfl rfl (by decide)
    ⟨k, N, h0, h1, h2, h3⟩⟩

/-- C11 (method gate): a request on the activation path whose method is not POST is
handed to the next handler as it came: the body is not read, the handler writes
nothing to the response and sends nothing upstream. -/
theorem method_gate_passes_untouched (env : Env) (e : EndpointRedirect) (rw : ResponseWriter)
    (req : Request) (hpath : HasPrefix req.URL.Path e.webhookPath = true)
    (hmethod : req.Method ≠ "POST") :
    (ServeHTTP env e rw req).next = [req] ∧ (ServeHTTP env e rw req).reads = 0 ∧
      (ServeHTTP env e rw req).rw = rw ∧ (ServeHTTP env e rw req).sent = [] := by
  simp [ServeHTTP, classify, hpath, hmethod]

theorem method_gate_passes_untouched_witness :
    HasPrefix "/webhooks" sampleHandler.webhookPath = true ∧
      (ServeHTTP sampleEnv sampleHandler freshWriter
          ⟨"GET", ⟨"", "", "/webhooks", "", ""⟩, [], ⟨[], false⟩⟩).next =
        [⟨"GET", ⟨"", "", "/webhooks", "", ""⟩, [], ⟨[], false⟩⟩] ∧
      (ServeHTTP sampleEnv sampleHandler freshWriter
          ⟨"GET", ⟨"", "", "/webhooks", "", ""⟩, [], ⟨[], false⟩⟩).reads = 0 :=
  have h := method_gate_passes_untouched sampleEnv sampleHandler freshWriter
    ⟨"GET", ⟨"", "", "/webhooks", "", ""⟩, [], ⟨[], false⟩⟩ (by decide) (by decide)
  ⟨by decide, h.1, h.2.1⟩

/-- C12 (header multiplicity): every request sent upstream carries, for each header
name of the original request, exactly the values of that name in their original
order, and no value under any other name.  The header map of the original request
holds one entry per header name, names being compared in canonical form. -/
theorem header_multiplicity (env : Env) (e : EndpointRedirect) (rw : ResponseWriter)
    (req : Request) (out : OutboundRequest) (hout : out ∈ (ServeHTTP env e rw req).sent)
    (hnames : (req.Header.map fun kv => CanonicalMIMEHeaderKey kv.1).Nodup) :
    (∀ kv ∈ req.Header, headerValues out.Header kv.1 = kv.2) ∧
      (∀ name, (∀ kv ∈ req.Header,
          CanonicalMIMEHeaderKey kv.1 ≠ CanonicalMIMEHeaderKey name) →
        headerValues out.Header name = []) := by
  obtain ⟨_, _, _, _, -, -, -, -, -, hh, -⟩ := mem_sent env e rw req out hout
  have hv : ∀ name, headerValues out.Header name =
      gathered req.Header (CanonicalMIMEHeaderKey name) := by
    intro name
    rw [headerValues, hh, valuesAt_copyHeader]
    rfl
  constructor
  · intro kv hkv
    rw [hv]
    exact gathered_of_nodup req.Header hnames kv hkv
  · intro name hne
    rw [hv]
    exact gathered_eq_nil _ req.Header hne

theorem header_multiplicity_witness :
    (⟨"POST", "http://a.example/hook",
          [("Content-Type", ["application/json"]), ("X-Trace", ["first", "second"])],
          bytesOf "\x7b\"endpoint_id\":\"KHUID000001\"\x7d"⟩ : OutboundRequest) ∈
        (ServeHTTP sampleEnv sampleHandler freshWriter twoValueRequest).sent ∧
      headerValues
          [("Content-Type", ["application/json"]), ("X-Trace", ["first", "second"])]
          "X-Trace" = ["first", "second"] :=
  ⟨by decide,
    (header_multiplicity sampleEnv sampleHandler freshWriter twoValueRequest
      ⟨"POST", "http://a.example/hook",
        [("Content-Type", ["application/json"]), ("X-Trace", ["first", "second"])],
        bytesOf "\x7b\"endpoint_id\":\"KHUID000001\"\x7d"⟩ (by decide) (by decide)).1
      ("X-Trace", ["first", "second"]) (by decide)⟩

/-- C13 (verbatim relay): when the request sent upstream is answered, the handler
writes the status code of the answer, writes exactly the bytes its body delivers,
and adds the values of every header of the answer, in order, to the response
headers; the next handler is not called. -/
theorem verbatim_relay (env : Env) (e : EndpointRedirect) (rw : ResponseWriter)
    (req : Request) (out : OutboundRequest) (resp : Response)
    (hout : out ∈ (ServeHTTP env e rw req).sent) (hdo : env.clientDo out = some resp) :
    (ServeHTTP env e rw req).rw.status = rw.status ++ [resp.StatusCode] ∧
      (ServeHTTP env e rw req).rw.written = rw.written ++ resp.Body.data ∧
      (∀ name, headerValues (ServeHTTP env e rw req).rw.header name =
        headerValues rw.header name ++ gathered resp.Header (CanonicalMIMEHeaderKey name)) ∧
      (∀ kv ∈ resp.Header, kv.2 <:+: headerValues (ServeHTTP env e rw req).rw.header kv.1) ∧
      (ServeHTTP env e rw req).next = [] := by
  obtain ⟨dest, body, u, newReq, -, hs, hp, hn, ho, -, -⟩ := mem_sent env e rw req out hout
  subst ho
  have hf := forward_of_do_some env rw req body dest u newReq resp hp hn hdo
  rw [hs, hf]
  have hv : ∀ name, headerValues (copyHeader resp.Header rw.header) name =
      headerValues rw.header name ++ gathered resp.Header (CanonicalMIMEHeaderKey name) := by
    intro name
    rw [headerValues, valuesAt_copyHeader]
    rfl
  refine ⟨rfl, rfl, hv, ?_, rfl⟩
  intro kv hkv
  show kv.2 <:+: headerValues (copyHeader resp.Header rw.header) kv.1
  rw [hv]
  obtain ⟨s, t, hst⟩ := infix_gathered resp.Header kv hkv
  exact ⟨headerValues rw.header kv.1 ++ s, t, by simp [← hst]⟩

theorem verbatim_relay_witness :
    (ServeHTTP cookieEnv sampleHandler freshWriter twoValueRequest).rw =
      ⟨[("Set-Cookie", ["a=1", "b=2"])], [201], bytesOf "created"⟩ ∧
      (ServeHTTP cookieEnv sampleHandler freshWriter twoValueRequest).rw.status =
        freshWriter.status ++ [201] :=
  ⟨by decide,
    (verbatim_relay cookieEnv sampleHandler freshWriter twoValueRequest
      ⟨"POST", "http://a.example/hook",
        [("Content-Type", ["application/json"]), ("X-Trace", ["first", "second"])],
        bytesOf "\x7b\"endpoint_id\":\"KHUID000001\"\x7d"⟩
      ⟨201, [("Set-Cookie", ["a=1", "b=2"])], ⟨bytesOf "created", false⟩⟩
      (by decide) rfl).1⟩

/-- C14 (post-commitment failures): once a destination is resolved, a failure to build
the outbound request (the destination or the merged URL does not parse) is answered
with status 500 and a fixed text, and a failure to execute it with status 502 and
the text "Failed to forward request"; in each case the next handler is not called. -/
theorem failures_after_commitment (env : Env) (e : EndpointRedirect) (rw : ResponseWriter)
    (req : Request) (redirectURL : String) (body : Bytes)
    (hc : classify env e req = .forward redirectURL body) :
    (ServeHTTP env e rw req).next = [] ∧
      (env.urlParse redirectURL = none →
        (ServeHTTP env e rw req).rw =
            ⟨rw.header, rw.status ++ [500], rw.written ++ bytesOf "Invalid redirect URL"⟩ ∧
          (ServeHTTP env e rw req).sent = []) ∧
      (∀ parsedURL, env.urlParse redirectURL = some parsedURL →
        NewRequestWithContext env req.Method
          (env.urlString (mergeQuery parsedURL req.URL.RawQuery)) body = none →
        (ServeHTTP env e rw req).rw =
            ⟨rw.header, rw.status ++ [500],
              rw.written ++ bytesOf "Failed to create redirect request"⟩ ∧
          (ServeHTTP env e rw req).sent = []) ∧
      (∀ parsedURL newReq, env.urlParse redirectURL = some parsedURL →
        NewRequestWithContext env req.Method
          (env.urlString (mergeQuery parsedURL req.URL.RawQuery)) body = some newReq →
        env.clientDo (withCopiedHeader req newReq) = none →
        (ServeHTTP env e rw req).rw =
            ⟨rw.header, rw.status ++ [502],
              rw.written ++ bytesOf "Failed to forward request"⟩ ∧
          (ServeHTTP env e rw req).sent = [withCopiedHeader req newReq]) := by
  have hs : ServeHTTP env e rw req = forward env rw req body redirectURL := by
    simp only [ServeHTTP, hc]
  rw [hs]
  refine ⟨forward_next env rw req body redirectURL, ?_, ?_, ?_⟩
  · intro hp
    rw [forward_of_parse_none env rw req body redirectURL hp]
    exact ⟨rfl, rfl⟩
  · intro u hp hn
    rw [forward_of_newRequest_none env rw req body redirectURL u hp hn]
    exact ⟨rfl, rfl⟩
  · intro u newReq hp hn hd
    rw [forward_of_do_none env rw req body redirectURL u newReq hp hn hd]
    exact ⟨rfl, rfl⟩

theorem failures_after_commitment_witness :
    (ServeHTTP downEnv sampleHandler freshWriter twoValueRequest).rw =
        ⟨[], [502], bytesOf "Failed to forward request"⟩ ∧
      (ServeHTTP downEnv sampleHandler freshWriter twoValueRequest).next = [] :=
  ⟨by decide,
    (failures_after_commitment downEnv sampleHandler freshWriter twoValueRequest
      "http://a.example/hook" (bytesOf "\x7b\"endpoint_id\":\"KHUID000001\"\x7d")
      (by decide)).1⟩

/-- C15 (the configured status is never applied): changing only `StatusCode` in a
configuration changes neither the error `New` returns nor, for any request, response
writer and upstream behaviour, anything `ServeHTTP` of the returned handler does:
the same call of the next handler, the same outbound request, the same status,
headers and body written. -/
theorem status_code_never_applied (env : Env) (config : Config) (name : String)
    (statusCode : Int) (rw : ResponseWriter) (req : Request) :
    (New env { config with StatusCode := statusCode } name).2 = (New env config name).2 ∧
      (New env { config with StatusCode := statusCode } name).1.map
          (fun e => ServeHTTP env e rw req) =
        (New env config name).1.map (fun e => ServeHTTP env e rw req) := by
  rw [New_eq, New_eq]
  dsimp only
  cases firstInvalid env (mapEntries config.RedirectMappings) with
  | some k => exact ⟨rfl, rfl⟩
  | none =>
    dsimp only
    split_ifs
    · exact ⟨rfl, rfl⟩
    · refine ⟨rfl, ?_⟩
      simp only [Option.map_some']
      congr 1
      apply ServeHTTP_congr
      · rw [applyDefaults_fieldName, applyDefaults_fieldName]
      · rfl
      · rfl
      · rw [applyDefaults_webhookPath, applyDefaults_webhookPath]

/-- C16 (defaulting): `CreateConfig` returns the field name "endpoint_id", a non-nil
empty mapping, an empty default redirect, the path "/webhooks" and the status 302;
`New` replaces an empty `FieldName`, an empty `WebhookPath` and a zero `StatusCode`
by these defaults and keeps every other configured value, so that the handler it
returns has a non-empty field name and a non-empty activation path. -/
theorem defaulting (env : Env) (config : Config) (name : String) :
    CreateConfig = ⟨"endpoint_id", some [], "", "/webhooks", 302⟩ ∧
      ∀ e, (New env config name).1 = some e →
        e.fieldName = (if config.FieldName = "" then "endpoint_id" else config.FieldName) ∧
          e.webhookPath =
            (if config.WebhookPath = "" then "/webhooks" else config.WebhookPath) ∧
          e.statusCode = (if config.StatusCode = 0 then 302 else config.StatusCode) ∧
          e.redirectMappings = config.RedirectMappings ∧
          e.defaultRedirect = config.DefaultRedirect ∧ e.name = name ∧
          e.fieldName ≠ "" ∧ e.webhookPath ≠ "" := by
  refine ⟨rfl, ?_⟩
  intro e he
  rw [New_eq] at he
  cases hf : firstInvalid env (mapEntries config.RedirectMappings) with
  | some k => simp [hf] at he
  | none =>
    simp only [hf] at he
    split_ifs at he
    simp only [Option.some.injEq] at he
    subst he
    dsimp only
    rw [applyDefaults_fieldName, applyDefaults_webhookPath, applyDefaults_statusCode]
    refine ⟨rfl, rfl, rfl, rfl, rfl, rfl, ?_, ?_⟩
    · split_ifs with h
      · decide
      · exact h
    · split_ifs with h
      · decide
      · exact h

/-- C17 (trim-insensitivity): when the trimmed form of a string field value is not
empty, the request that carries the value and the request that carries its trimmed
form get the same decision, the one the mappings and the default give for the
trimmed key. -/
theorem trim_insensitive (env : Env) (e : EndpointRedirect) (req1 req2 : Request)
    (body1 body2 : Bytes) (payload1 payload2 : List (String × JValue)) (s : String)
    (htrim : TrimSpace s ≠ "")
    (hpath1 : HasPrefix req1.URL.Path e.webhookPath = true) (hpost1 : req1.Method = "POST")
    (hread1 : ioReadAll req1.Body = some body1)
    (hjson1 : env.jsonUnmarshal body1 = some payload1)
    (hfield1 : payload1.lookup e.fieldName = some (.string s))
    (hpath2 : HasPrefix req2.URL.Path e.webhookPath = true) (hpost2 : req2.Method = "POST")
    (hread2 : ioReadAll req2.Body = some body2)
    (hjson2 : env.jsonUnmarshal body2 = some payload2)
    (hfield2 : payload2.lookup e.fieldName = some (.string (TrimSpace s))) :
    (classify env e req1).destination = (classify env e req2).destination ∧
      (classify env e req1).destination =
        resolveSpec e.redirectMappings e.defaultRedirect (TrimSpace s) := by
  have hs : s ≠ "" := by
    rintro rfl
    exact htrim TrimSpace_empty
  have h1 := classify_destination env e req1 body1 payload1 (.string s) s hpath1 hpost1 hread1
    hjson1 hfield1 rfl hs
  have h2 := classify_destination env e req2 body2 payload2 (.string (TrimSpace s))
    (TrimSpace s) hpath2 hpost2 hread2 hjson2 hfield2 rfl htrim
  rw [TrimSpace_idem] at h2
  exact ⟨h1.trans h2.symm, h1⟩

theorem trim_insensitive_witness :
    TrimSpace " KHUID000001 " = "KHUID000001" ∧
      (classify sampleEnv sampleHandler
          (postWebhook "" "\x7b\"endpoint_id\":\" KHUID000001 \"\x7d")).destination =
        (classify sampleEnv sampleHandler
          (postWebhook "" "\x7b\"endpoint_id\":\"KHUID000001\"\x7d")).destination :=
  ⟨by decide,
    (trim_insensitive sampleEnv sampleHandler
      (postWebhook "" "\x7b\"endpoint_id\":\" KHUID000001 \"\x7d")
      (postWebhook "" "\x7b\"endpoint_id\":\"KHUID000001\"\x7d")
      (bytesOf "\x7b\"endpoint_id\":\" KHUID000001 \"\x7d")
      (bytesOf "\x7b\"endpoint_id\":\"KHUID000001\"\x7d")
      [("endpoint_id", .string " KHUID000001 ")] [("endpoint_id", .string "KHUID000001")]
      " KHUID000001 " (by decide) (by decide) (by decide) (by decide) rfl rfl
      (by decide) (by decide) (by decide) rfl rfl).1⟩

/-- C18 (the request-time URL error is unreachable): for a handler `New` returned, every
destination `ServeHTTP` chooses parses, and the handler never answers with the status
500 and the text "Invalid redirect URL" of its own: such a response can only be an
upstream answer relayed after a request was sent. -/
theorem invalid_redirect_branch_unreachable (env : Env) (config : Config) (name : String)
    (e : EndpointRedirect) (rw : ResponseWriter) (req : Request)
    (hnew : (New env config name).1 = some e) :
    (∀ redirectURL, (classify env e req).destination = some redirectURL →
        ∃ parsedURL, env.urlParse redirectURL = some parsedURL) ∧
      ((ServeHTTP env e rw req).rw = (rw.WriteHeader 500).Write (bytesOf "Invalid redirect URL") →
        (ServeHTTP env e rw req).sent ≠ []) := by
  constructor
  · intro redirectURL hdest
    cases hc : classify env e req with
    | passThrough r n => simp [hc, Decision.destination] at hdest
    | forward u body =>
      simp only [hc, Decision.destination, Option.some.injEq] at hdest
      subst hdest
      exact destination_parses env config name e req u body hnew hc
  · intro hrw
    rcases ServeHTTP_cases env e rw req with ⟨req1, reads, -, hs⟩ | ⟨dest, body, hc, hs⟩
    · rw [hs] at hrw
      have hlen := congrArg (fun w : ResponseWriter => w.status.length) hrw
      simp [ResponseWriter.WriteHeader, ResponseWriter.Write] at hlen
    · obtain ⟨u, hu⟩ := destination_parses env config name e req dest body hnew hc
      rw [hs] at hrw ⊢
      rcases forward_cases env rw req body dest with ⟨hp, -⟩ | ⟨_, -, -, hf⟩ |
        ⟨_, newReq, -, -, -, hf⟩ | ⟨_, newReq, resp, -, -, -, hf⟩
      · rw [hu] at hp
        cases hp
      · rw [hf] at hrw
        have hw := congrArg (fun w : ResponseWriter => w.written) hrw
        simp only [ResponseWriter.WriteHeader, ResponseWriter.Write,
          List.append_cancel_left_eq] at hw
        exact absurd hw (by decide)
      · rw [hf]
        exact List.cons_ne_nil _ _
      · rw [hf]
        exact List.cons_ne_nil _ _

theorem invalid_redirect_branch_unreachable_witness :
    (New sampleEnv sampleConfig "test-plugin").1 = some sampleHandler ∧
      ∀ redirectURL,
        (classify sampleEnv sampleHandler twoValueRequest).destination = some redirectURL →
          ∃ parsedURL, sampleEnv.urlParse redirectURL = some parsedURL :=
  ⟨by decide,
    (invalid_redirect_branch_unreachable sampleEnv sampleConfig "test-plugin" sampleHandler
      freshWriter twoValueRequest (by decide)).1⟩

/-- C19 (exclusive outcome): every call of `ServeHTTP` either calls the next handler
exactly once and writes nothing itself, nor sends anything upstream; or never calls
the next handler and writes exactly one status code, which is 500, 502 or the status
of the upstream answer to the one request it sent. -/
theorem exclusive_outcome (env : Env) (e : EndpointRedirect) (rw : ResponseWriter)
    (req : Request) :
    ((ServeHTTP env e rw req).next.length = 1 ∧ (ServeHTTP env e rw req).rw = rw ∧
        (ServeHTTP env e rw req).sent = []) ∨
      ((ServeHTTP env e rw req).next = [] ∧
        ∃ code, (ServeHTTP env e rw req).rw.status = rw.status ++ [code] ∧
          (code = 500 ∨ code = 502 ∨
            ∃ out resp, (ServeHTTP env e rw req).sent = [out] ∧
              env.clientDo out = some resp ∧ code = resp.StatusCode)) := by
  rcases ServeHTTP_cases env e rw req with ⟨req1, reads, -, hs⟩ | ⟨dest, body, -, hs⟩
  · left
    rw [hs]
    exact ⟨rfl, rfl, rfl⟩
  · right
    rw [hs]
    rcases forward_cases env rw req body dest with ⟨-, hf⟩ | ⟨_, -, -, hf⟩ |
      ⟨_, newReq, -, -, -, hf⟩ | ⟨_, newReq, resp, -, -, hd, hf⟩
    · rw [hf]
      exact ⟨rfl, 500, rfl, Or.inl rfl⟩
    · rw [hf]
      exact ⟨rfl, 500, rfl, Or.inl rfl⟩
    · rw [hf]
      exact ⟨rfl, 502, rfl, Or.inr (Or.inl rfl)⟩
    · rw [hf]
      exact ⟨rfl, resp.StatusCode, rfl, Or.inr (Or.inr ⟨_, resp, rfl, hd, rfl⟩)⟩

end PayloadRouter
